import Mathlib

/-!
Shallow embedding of the scheduling / lifecycle-enforcement core of the
`bocik` repository, together with proofs of the behavioural claims about
it.

The embedding covers:

* the per-owner notification throttle of `handle_free_channel_join`
  (`src/handlers/events.py`),
* the scheduler start/stop bookkeeping of `BotScheduler`
  (`src/utils/scheduler.py`),
* the expiry sweep `BotScheduler.check_expired_subscriptions` together
  with the storage queries it uses (`src/database/models.py`),
* the publication pipeline `BotScheduler.publish_scheduled_posts` and
  `send_post_to_channel` (`src/handlers/admin_posts.py`).

Timestamps are modelled as rationals (for the `time.time()` clock of the
notifier) and integers (for database datetimes; only ordering matters).
Transport and storage collaborators are modelled as explicit environments
of response functions; a call that the Python code observes as a raised
exception is modelled by the corresponding error outcome.  `asyncio.sleep`
is modelled as suspending for exactly the requested duration.
-/

namespace Bocik

/-! ### Rate-limited notifier (`src/handlers/events.py`)

The throttle state in the source is a pair of module-level dicts keyed by
`owner_id` (`_lead_notify_last_ts`, `_lead_notify_timestamps`), guarded by
one `asyncio.Lock`.  Entries for distinct owners are read and written
independently, so we model the state for one owner: the `last` slot
(`dict.get(owner_id, 0)` supplies `0` before the first send) and the
sliding `window` of send timestamps (initialised to `[]`). -/

/-- Throttle bookkeeping for one owner: `_lead_notify_last_ts[owner]` and
`_lead_notify_timestamps[owner]`. -/
structure LeadThrottle where
  last : ℚ
  window : List ℚ
deriving Repr, DecidableEq

/-- `_LEAD_MIN_INTERVAL = 2.0` — minimum seconds between notifications to
the same owner. -/
def LEAD_MIN_INTERVAL : ℚ := 2

/-- `_LEAD_MAX_PER_MINUTE = 25` — maximum lead notifications per owner per
minute. -/
def LEAD_MAX_PER_MINUTE : ℕ := 25

/-- Outcome of one throttled notification attempt: either the message was
sent (recording timestamp `ts`) or it was skipped with only a warning log
(`logger.warning("Lead notification skipped (rate limit) ...")`). -/
inductive NotifyOutcome where
  | sent (ts : ℚ)
  | skipped
deriving Repr, DecidableEq

/-- The list comprehension
`[t for t in _lead_notify_timestamps[owner_id] if t > now - 60]`. -/
def pruneWindow (now : ℚ) (w : List ℚ) : List ℚ :=
  w.filter (fun t => decide (now - 60 < t))

/-- The throttle block of `handle_free_channel_join`, executed under
`_lead_notify_lock` with `now = time.time()` read at entry:

* prune the owner's window to the last 60 seconds;
* if the pruned window already holds the ceiling, skip (log only);
* otherwise, if less than `_LEAD_MIN_INTERVAL` elapsed since the last
  send, `await asyncio.sleep` for the remaining delta and re-read the
  clock (the sleep is modelled as lasting exactly the requested delta, so
  the re-read clock shows `last + LEAD_MIN_INTERVAL`);
* record the send time in both the `last` slot and the window. -/
def handleFreeJoinThrottle (st : LeadThrottle) (now : ℚ) :
    LeadThrottle × NotifyOutcome :=
  let w := pruneWindow now st.window
  if LEAD_MAX_PER_MINUTE ≤ w.length then
    ({ st with window := w }, .skipped)
  else
    let ts := if now - st.last < LEAD_MIN_INTERVAL then st.last + LEAD_MIN_INTERVAL else now
    (⟨ts, w ++ [ts]⟩, .sent ts)

/-- Fresh throttle state for an owner that was never notified:
`_lead_notify_last_ts.get(owner_id, 0)` is `0` and the window starts
empty. -/
def initThrottle : LeadThrottle := ⟨0, []⟩

/-- Run a sequence of qualifying join events for one owner; `times` are
the `time.time()` values read at lock acquisition.  Returns the final
state and the list of timestamps actually sent, in order. -/
def notifyRun (st : LeadThrottle) : List ℚ → LeadThrottle × List ℚ
  | [] => (st, [])
  | now :: rest =>
    let p := handleFreeJoinThrottle st now
    let r := notifyRun p.1 rest
    (r.1, (match p.2 with | .sent ts => [ts] | .skipped => []) ++ r.2)

/-- Physical side conditions on the clock values observed by successive
calls for one owner: the clock is monotone (`prev ≤ now`), and the `last`
slot was recorded from a clock read that happened before the lock was
released, hence before the next call's read (`st.last ≤ now`). -/
def ValidArrivals (st : LeadThrottle) (prev : ℚ) : List ℚ → Prop
  | [] => True
  | now :: rest =>
    prev ≤ now ∧ st.last ≤ now ∧
      ValidArrivals (handleFreeJoinThrottle st now).1 now rest

/-- Number of sends falling in the sliding window `(w - 60, w]`. -/
def windowCount (w : ℚ) (S : List ℚ) : ℕ :=
  (S.filter (fun t => decide (w - 60 < t ∧ t ≤ w))).length

/-! Helper lemmas about the throttle. -/

lemma pruneWindow_sublist (now : ℚ) (w : List ℚ) : (pruneWindow now w).Sublist w :=
  List.filter_sublist w

lemma mem_pruneWindow {now t : ℚ} {w : List ℚ} :
    t ∈ pruneWindow now w ↔ t ∈ w ∧ now - 60 < t := by
  simp [pruneWindow]

lemma pruneWindow_pruneWindow {now now' : ℚ} (h : now ≤ now') (w : List ℚ) :
    pruneWindow now' (pruneWindow now w) = pruneWindow now' w := by
  unfold pruneWindow
  rw [List.filter_filter]
  refine List.filter_congr fun t _ => ?_
  by_cases h1 : now' - 60 < t
  · have h2 : now - 60 < t := by linarith
    simp [h1, h2]
  · simp [h1]

lemma throttle_skip {st : LeadThrottle} {now : ℚ}
    (h : LEAD_MAX_PER_MINUTE ≤ (pruneWindow now st.window).length) :
    handleFreeJoinThrottle st now =
      ({ st with window := pruneWindow now st.window }, .skipped) := by
  simp [handleFreeJoinThrottle, h]

lemma throttle_send {st : LeadThrottle} {now : ℚ}
    (h : ¬ LEAD_MAX_PER_MINUTE ≤ (pruneWindow now st.window).length) :
    handleFreeJoinThrottle st now =
      (⟨max now (st.last + LEAD_MIN_INTERVAL),
        pruneWindow now st.window ++ [max now (st.last + LEAD_MIN_INTERVAL)]⟩,
       .sent (max now (st.last + LEAD_MIN_INTERVAL))) := by
  have hts : (if now - st.last < LEAD_MIN_INTERVAL then st.last + LEAD_MIN_INTERVAL else now)
      = max now (st.last + LEAD_MIN_INTERVAL) := by
    by_cases hlt : now - st.last < LEAD_MIN_INTERVAL
    · rw [if_pos hlt, max_eq_right (by linarith)]
    · rw [if_neg hlt, max_eq_left (by linarith)]
  simp [handleFreeJoinThrottle, h, hts]

lemma sent_ts_eq {st st' : LeadThrottle} {now ts : ℚ}
    (h : handleFreeJoinThrottle st now = (st', .sent ts)) :
    ts = max now (st.last + LEAD_MIN_INTERVAL) ∧
      st' = ⟨ts, pruneWindow now st.window ++ [ts]⟩ := by
  by_cases hc : LEAD_MAX_PER_MINUTE ≤ (pruneWindow now st.window).length
  · rw [throttle_skip hc] at h
    exact absurd (congrArg Prod.snd h) (by simp)
  · rw [throttle_send hc] at h
    obtain ⟨h1, h2⟩ := Prod.mk.injEq .. ▸ h
    cases h2
    exact ⟨rfl, h1.symm⟩

lemma sent_ts_ge {st st' : LeadThrottle} {now ts : ℚ}
    (h : handleFreeJoinThrottle st now = (st', .sent ts)) :
    st.last + LEAD_MIN_INTERVAL ≤ ts := by
  obtain ⟨h1, -⟩ := sent_ts_eq h
  rw [h1]
  exact le_max_right _ _

/-- All send timestamps produced by a run, starting from the state's
`last` slot, are spaced at least `LEAD_MIN_INTERVAL` apart. -/
lemma notifyRun_chain (times : List ℚ) (st : LeadThrottle) :
    List.Chain' (fun a b => a + LEAD_MIN_INTERVAL ≤ b)
      (st.last :: (notifyRun st times).2) := by
  induction times generalizing st with
  | nil => simp [notifyRun]
  | cons now rest ih =>
    rcases hp : handleFreeJoinThrottle st now with ⟨st1, o⟩
    cases o with
    | skipped =>
      have hlast : st1.last = st.last := by
        by_cases hc : LEAD_MAX_PER_MINUTE ≤ (pruneWindow now st.window).length
        · rw [throttle_skip hc] at hp
          obtain ⟨h1, -⟩ := Prod.mk.injEq .. ▸ hp
          rw [← h1]
        · rw [throttle_send hc] at hp
          exact absurd (congrArg Prod.snd hp) (by simp)
      have := ih st1
      rw [hlast] at this
      simpa [notifyRun, hp] using this
    | sent ts =>
      have hge := sent_ts_ge hp
      obtain ⟨-, hst1⟩ := sent_ts_eq hp
      have hl : st1.last = ts := by rw [hst1]
      have hchain := ih st1
      rw [hl] at hchain
      simp only [notifyRun, hp, List.singleton_append, List.nil_append]
      exact List.Chain'.cons hge hchain

/-- Invariant tying the throttle state to the list `S` of all sends so
far: sends are `LEAD_MIN_INTERVAL`-spaced, all at or before `last`, the
stored window is a sublist of the sends, and a send missing from the
window is at least 60 s older than the last observed clock value. -/
def ThrottleInv (st : LeadThrottle) (prev : ℚ) (S : List ℚ) : Prop :=
  S.Pairwise (fun a b => a + LEAD_MIN_INTERVAL ≤ b)
  ∧ (∀ t ∈ S, t ≤ st.last)
  ∧ st.window.Sublist S
  ∧ (∀ t ∈ S, t ∈ st.window ∨ t + 60 ≤ prev)

lemma notify_bound_aux :
    ∀ (times : List ℚ) (st : LeadThrottle) (prev : ℚ) (S : List ℚ),
    ValidArrivals st prev times → ThrottleInv st prev S →
    (S ++ (notifyRun st times).2).Pairwise (fun a b => a + LEAD_MIN_INTERVAL ≤ b)
    ∧ ∀ τ ∈ (notifyRun st times).2,
        windowCount τ (S ++ (notifyRun st times).2) ≤ LEAD_MAX_PER_MINUTE := by
  intro times
  induction times with
  | nil =>
    intro st prev S _ hinv
    simp only [notifyRun, List.append_nil]
    exact ⟨hinv.1, by simp⟩
  | cons now rest ih =>
    intro st prev S hvalid hinv
    obtain ⟨hprev, hlastle, hvalid'⟩ := hvalid
    obtain ⟨hpw, hle, hsub, hcov⟩ := hinv
    by_cases hc : LEAD_MAX_PER_MINUTE ≤ (pruneWindow now st.window).length
    · -- skipped: state keeps `last`, window is pruned, no send recorded
      have hstep := throttle_skip hc
      have hinv' : ThrottleInv { st with window := pruneWindow now st.window } now S := by
        refine ⟨hpw, hle, (pruneWindow_sublist now st.window).trans hsub, fun t ht => ?_⟩
        rcases hcov t ht with hmem | hold
        · by_cases hcut : now - 60 < t
          · exact Or.inl (mem_pruneWindow.2 ⟨hmem, hcut⟩)
          · exact Or.inr (by linarith)
        · exact Or.inr (by linarith)
      have hv' : ValidArrivals { st with window := pruneWindow now st.window } now rest := by
        have : (handleFreeJoinThrottle st now).1 = { st with window := pruneWindow now st.window } := by
          rw [hstep]
        rw [← this]
        exact hvalid'
      have hres := ih { st with window := pruneWindow now st.window } now S hv' hinv'
      simpa [notifyRun, hstep] using hres
    · -- sent: timestamp `ts = max now (last + interval)` is recorded
      have hstep := throttle_send hc
      set ts := max now (st.last + LEAD_MIN_INTERVAL) with hts
      have htsnow : now ≤ ts := le_max_left _ _
      have htslast : st.last + LEAD_MIN_INTERVAL ≤ ts := le_max_right _ _
      set st1 : LeadThrottle := ⟨ts, pruneWindow now st.window ++ [ts]⟩ with hst1
      have hpw' : (S ++ [ts]).Pairwise (fun a b => a + LEAD_MIN_INTERVAL ≤ b) := by
        rw [List.pairwise_append]
        refine ⟨hpw, by simp, fun a ha b hb => ?_⟩
        simp only [List.mem_singleton] at hb
        subst hb
        have := hle a ha
        linarith
      have hinv' : ThrottleInv st1 now (S ++ [ts]) := by
        refine ⟨hpw', ?_, ?_, ?_⟩
        · intro t ht
          rcases List.mem_append.1 ht with h | h
          · have := hle t h
            simp only [hst1]
            linarith
          · simp only [List.mem_singleton] at h
            subst h
            simp [hst1]
        · exact List.Sublist.append ((pruneWindow_sublist now st.window).trans hsub)
            (List.Sublist.refl _)
        · intro t ht
          rcases List.mem_append.1 ht with h | h
          · rcases hcov t h with hmem | hold
            · by_cases hcut : now - 60 < t
              · exact Or.inl (by
                  simp only [hst1, List.mem_append]
                  exact Or.inl (mem_pruneWindow.2 ⟨hmem, hcut⟩))
              · exact Or.inr (by linarith)
            · exact Or.inr (by linarith)
          · simp only [List.mem_singleton] at h
            subst h
            exact Or.inl (by simp [hst1])
      have hv' : ValidArrivals st1 now rest := by
        have : (handleFreeJoinThrottle st now).1 = st1 := by rw [hstep]
        rw [← this]
        exact hvalid'
      have hres := ih st1 now (S ++ [ts]) hv' hinv'
      obtain ⟨hrespw, hresbound⟩ := hres
      have hassoc : S ++ [ts] ++ (notifyRun st1 rest).2
          = S ++ (ts :: (notifyRun st1 rest).2) := by simp
      rw [hassoc] at hrespw hresbound
      have hsplit : (notifyRun st (now :: rest)).2 = ts :: (notifyRun st1 rest).2 := by
        simp [notifyRun, hstep]
      rw [hsplit]
      refine ⟨hrespw, fun τ hτ => ?_⟩
      rcases List.mem_cons.1 hτ with hτts | hτrest
      · -- the window ending at the fresh send holds at most the ceiling
        obtain rfl : τ = ts := hτts
        -- later sends are strictly after ts, so they do not land in its window
        have hlater : ∀ y ∈ (notifyRun st1 rest).2, ¬ (y ≤ ts) := by
          intro y hy
          have hpc := (List.pairwise_append.1 hrespw).2.1
          have hyt := (List.pairwise_cons.1 hpc).1 y hy
          have h2 : (0:ℚ) < LEAD_MIN_INTERVAL := by norm_num [LEAD_MIN_INTERVAL]
          intro hle'
          linarith
        have hfilterlater :
            ((notifyRun st1 rest).2.filter (fun t => decide (ts - 60 < t ∧ t ≤ ts))) = [] := by
          rw [List.filter_eq_nil_iff]
          intro y hy
          simp only [decide_eq_true_eq, not_and]
          intro _
          exact hlater y hy
        -- sends of S in (ts-60, ts] all live in the pruned window, which has < 25 entries
        have hsubw : ∀ t ∈ S.filter (fun t => decide (ts - 60 < t ∧ t ≤ ts)),
            t ∈ pruneWindow now st.window := by
          intro t ht
          rw [List.mem_filter] at ht
          obtain ⟨htS, htw⟩ := ht
          simp only [decide_eq_true_eq] at htw
          rcases hcov t htS with hmem | hold
          · refine mem_pruneWindow.2 ⟨hmem, ?_⟩
            have : ts - 60 < t := htw.1
            linarith
          · exfalso
            have : ts - 60 < t := htw.1
            linarith
        have hndS : S.Nodup := by
          have h2 : (0:ℚ) < LEAD_MIN_INTERVAL := by norm_num [LEAD_MIN_INTERVAL]
          refine hpw.imp fun {a b} hab => ?_
          intro hEq
          subst hEq
          linarith
        have hndF : (S.filter (fun t => decide (ts - 60 < t ∧ t ≤ ts))).Nodup :=
          hndS.filter _
        have hlen : (S.filter (fun t => decide (ts - 60 < t ∧ t ≤ ts))).length
            ≤ (pruneWindow now st.window).length :=
          (List.subperm_of_subset hndF hsubw).length_le
        have hlt : (pruneWindow now st.window).length < LEAD_MAX_PER_MINUTE :=
          Nat.lt_of_not_le hc
        unfold windowCount
        rw [List.filter_append, List.length_append, List.filter_cons]
        have htsin : decide (ts - 60 < ts ∧ ts ≤ ts) = true := by
          simp only [decide_eq_true_eq]
          constructor <;> [linarith; exact le_refl ts]
        rw [if_pos htsin, hfilterlater]
        simp only [List.length_cons, List.length_nil]
        omega
      · have := hresbound τ hτrest
        unfold windowCount at this ⊢
        rw [← hassoc] at this
        simpa using this

/-- A per-window bound at every send instant extends to every sliding
window position. -/
lemma windowCount_any {S : List ℚ} {n : ℕ} (hnd : S.Nodup)
    (hm : ∀ τ ∈ S, windowCount τ S ≤ n) (w : ℚ) : windowCount w S ≤ n := by
  classical
  set F := S.filter (fun t => decide (w - 60 < t ∧ t ≤ w)) with hF
  rcases hM : F.maximum with _ | τ
  · have : F = [] := List.maximum_eq_none.1 hM
    unfold windowCount
    rw [← hF, this]
    simp
  · have hτF : τ ∈ F := List.maximum_mem hM
    have hτS : τ ∈ S := (List.mem_filter.1 hτF).1
    have hτw : w - 60 < τ ∧ τ ≤ w := by
      have := (List.mem_filter.1 hτF).2
      simpa using this
    have hsub : F ⊆ S.filter (fun t => decide (τ - 60 < t ∧ t ≤ τ)) := by
      intro t ht
      have htS : t ∈ S := (List.mem_filter.1 ht).1
      have htw : w - 60 < t ∧ t ≤ w := by
        have := (List.mem_filter.1 ht).2
        simpa using this
      have htτ : t ≤ τ := List.le_maximum_of_mem ht hM
      rw [List.mem_filter]
      refine ⟨htS, ?_⟩
      simp only [decide_eq_true_eq]
      exact ⟨by linarith [htw.1, hτw.2], htτ⟩
    have hndF : F.Nodup := hnd.filter _
    have := (List.subperm_of_subset hndF hsub).length_le
    unfold windowCount
    rw [← hF]
    exact le_trans this (hm τ hτS)

/-- C3: for any owner, across any sliding 60-second window, the throttle
sends at most the ceiling of 25 notifications; an event arriving when the
owner's pruned window already holds 25 send timestamps yields `skipped`
(logged only): the state keeps only the pruned window, nothing is queued
and nothing is retried. -/
theorem C3_notifier_rate_bound (times : List ℚ)
    (h : ValidArrivals initThrottle 0 times) :
    (∀ w : ℚ, windowCount w (notifyRun initThrottle times).2 ≤ LEAD_MAX_PER_MINUTE)
    ∧ (∀ (st : LeadThrottle) (now : ℚ),
        LEAD_MAX_PER_MINUTE ≤ (pruneWindow now st.window).length →
        handleFreeJoinThrottle st now
          = ({ st with window := pruneWindow now st.window }, .skipped)) := by
  have hinv : ThrottleInv initThrottle 0 [] := by
    refine ⟨by simp, by simp, by simp [initThrottle], by simp⟩
  have haux := notify_bound_aux times initThrottle 0 [] h hinv
  simp only [List.nil_append] at haux
  obtain ⟨hpw, hbound⟩ := haux
  have hnd : (notifyRun initThrottle times).2.Nodup := by
    have h2 : (0:ℚ) < LEAD_MIN_INTERVAL := by norm_num [LEAD_MIN_INTERVAL]
    refine hpw.imp fun {a b} hab => ?_
    intro hEq
    subst hEq
    linarith
  exact ⟨fun w => windowCount_any hnd hbound w, fun st now hc => throttle_skip hc⟩

/-- Witness for C3 at the concrete arrival list `[100, 101]`. -/
theorem C3_notifier_rate_bound_witness :
    (∀ w : ℚ, windowCount w (notifyRun initThrottle [100, 101]).2 ≤ LEAD_MAX_PER_MINUTE)
    ∧ (∀ (st : LeadThrottle) (now : ℚ),
        LEAD_MAX_PER_MINUTE ≤ (pruneWindow now st.window).length →
        handleFreeJoinThrottle st now
          = ({ st with window := pruneWindow now st.window }, .skipped)) :=
  C3_notifier_rate_bound [100, 101] (by
    refine ⟨by norm_num, by norm_num [initThrottle], ?_⟩
    norm_num [ValidArrivals, handleFreeJoinThrottle, pruneWindow, initThrottle,
      LEAD_MIN_INTERVAL, LEAD_MAX_PER_MINUTE])

/-- C7: a successful send records `max now (last + LEAD_MIN_INTERVAL)` —
i.e. when less than the minimum spacing has elapsed the caller is
suspended for the remaining delta first — and the recorded timestamp is
stored in both the `last` slot and the sliding window before the call
returns; consequently consecutive send timestamps to one owner are always
at least `LEAD_MIN_INTERVAL` apart. -/
theorem C7_notifier_min_spacing :
    (∀ (st st' : LeadThrottle) (now ts : ℚ),
        handleFreeJoinThrottle st now = (st', .sent ts) →
        ts = max now (st.last + LEAD_MIN_INTERVAL)
        ∧ st'.last = ts
        ∧ ts ∈ st'.window
        ∧ st'.window = pruneWindow now st.window ++ [ts])
    ∧ ∀ times : List ℚ,
        List.Chain' (fun a b => a + LEAD_MIN_INTERVAL ≤ b)
          (notifyRun initThrottle times).2 := by
  constructor
  · intro st st' now ts h
    obtain ⟨h1, h2⟩ := sent_ts_eq h
    refine ⟨h1, by rw [h2], by rw [h2]; simp, by rw [h2]⟩
  · intro times
    exact (notifyRun_chain times initThrottle).tail

/-- Witness for C7's send clause at the concrete input `last = 0`,
`now = 5`. -/
theorem C7_notifier_min_spacing_witness :
    (5:ℚ) = max 5 (initThrottle.last + LEAD_MIN_INTERVAL)
    ∧ (LeadThrottle.mk 5 [5]).last = 5
    ∧ (5:ℚ) ∈ (LeadThrottle.mk 5 [5]).window
    ∧ (LeadThrottle.mk 5 [5]).window = pruneWindow 5 initThrottle.window ++ [5] :=
  C7_notifier_min_spacing.1 initThrottle ⟨5, [5]⟩ 5 5 (by
    norm_num [handleFreeJoinThrottle, pruneWindow, initThrottle,
      LEAD_MIN_INTERVAL, LEAD_MAX_PER_MINUTE])

/-- C10: a skipped event leaves the throttle bookkeeping without any new
record: the `last` slot is unchanged, the window is only pruned of entries
older than 60 s (nothing is appended), and any later call at a clock value
`now' ≥ now` behaves exactly as it would have had the skipped event never
arrived. -/
theorem C10_notifier_skip_no_record (st : LeadThrottle) (now : ℚ)
    (st' : LeadThrottle)
    (h : handleFreeJoinThrottle st now = (st', .skipped)) :
    st'.last = st.last
    ∧ st'.window = pruneWindow now st.window
    ∧ (∀ t ∈ st'.window, t ∈ st.window)
    ∧ ∀ now' : ℚ, now ≤ now' →
        handleFreeJoinThrottle st' now' = handleFreeJoinThrottle st now' := by
  by_cases hc : LEAD_MAX_PER_MINUTE ≤ (pruneWindow now st.window).length
  · rw [throttle_skip hc] at h
    have hst' : st' = { st with window := pruneWindow now st.window } := by
      have := congrArg Prod.fst h
      simpa using this.symm
    subst hst'
    refine ⟨rfl, rfl, fun t ht => (mem_pruneWindow.1 ht).1, fun now' hle' => ?_⟩
    simp only [handleFreeJoinThrottle]
    simp only [pruneWindow_pruneWindow hle']
  · rw [throttle_send hc] at h
    exact absurd (congrArg Prod.snd h) (by simp)

/-- A concrete throttle state whose pruned window is already at the
ceiling: 25 send timestamps within the last 60 seconds of clock value
`50`. -/
def fullThrottle : LeadThrottle :=
  ⟨30, [1, 2, 3, 4, 5, 6, 7, 8, 9, 10, 11, 12, 13, 14, 15, 16, 17, 18, 19,
        20, 21, 22, 23, 24, 25]⟩

/-- Witness for C10 at the concrete full state and `now = 50`. -/
theorem C10_notifier_skip_no_record_witness :
    fullThrottle.last = fullThrottle.last
    ∧ fullThrottle.window = pruneWindow 50 fullThrottle.window
    ∧ (∀ t ∈ fullThrottle.window, t ∈ fullThrottle.window)
    ∧ ∀ now' : ℚ, 50 ≤ now' →
        handleFreeJoinThrottle fullThrottle now' = handleFreeJoinThrottle fullThrottle now' :=
  C10_notifier_skip_no_record fullThrottle 50 fullThrottle (by
    norm_num [handleFreeJoinThrottle, pruneWindow, fullThrottle, LEAD_MAX_PER_MINUTE])

/-! ### Scheduler Core start/stop (`BotScheduler` in `src/utils/scheduler.py`) -/

/-- One APScheduler job registration: id and trigger interval in
minutes. -/
structure JobDef where
  id : String
  intervalMinutes : ℕ
deriving Repr, DecidableEq

/-- In-memory state of `BotScheduler`: the `_is_running` flag and the
registered jobs. -/
structure SchedulerState where
  is_running : Bool
  jobs : List JobDef
deriving Repr, DecidableEq

/-- `scheduler.add_job(..., replace_existing=True)`: re-registering an
existing id replaces the previous definition, otherwise the job is
appended. -/
def add_job (jobs : List JobDef) (j : JobDef) : List JobDef :=
  if jobs.any (fun k => k.id = j.id) then
    jobs.map (fun k => if k.id = j.id then j else k)
  else jobs ++ [j]

/-- The four recurring jobs registered by `BotScheduler.start`, with the
intervals from the source (`minutes=1`, `minutes=1`, `hours=24`,
`hours=6`). -/
def schedulerJobs : List JobDef :=
  [⟨"auto_kick_job", 1⟩, ⟨"publish_posts_job", 1⟩, ⟨"sfs_daily_job", 1440⟩,
   ⟨"sfs_update_members_job", 360⟩]

/-- How a call to `start` returned: either it started the scheduler, or it
found `_is_running` already true, logged `"Scheduler już działa"` at
warning level and returned normally. -/
inductive StartResult where
  | started
  | warnedAlreadyRunning
deriving Repr, DecidableEq

/-- `BotScheduler.start`: if `self._is_running` the method logs a warning
and returns; otherwise it registers the four jobs and flips the flag.  The
source's `except ... raise` clause re-raises only failures of the
underlying APScheduler calls, which have no failure mode in this model;
there is no `AlreadyRunning` error path in the source. -/
def start (st : SchedulerState) : SchedulerState × StartResult :=
  if st.is_running then (st, .warnedAlreadyRunning)
  else ({ is_running := true, jobs := schedulerJobs.foldl add_job st.jobs }, .started)

/-- A freshly constructed `BotScheduler`: not running, no jobs. -/
def initScheduler : SchedulerState := ⟨false, []⟩

/-- Counterexample to C2 as stated: calling `start` a second time after a
successful first call returns normally with the warning result and leaves
the state unchanged — it does not fail with an `AlreadyRunning` error (the
model has no error outcome for this path because the source has none). -/
theorem C2_counterexample :
    (start (start initScheduler).1).2 = .warnedAlreadyRunning
    ∧ (start (start initScheduler).1).1 = (start initScheduler).1 := by
  constructor <;> rfl

/-- C2 amended: a second `start()` while the scheduler is running logs a
warning and returns immediately as a no-op; the scheduler state is
unchanged and no error is raised. -/
theorem C2_start_second_noop (st : SchedulerState) (h : st.is_running = true) :
    start st = (st, .warnedAlreadyRunning) := by
  simp [start, h]

/-- Witness for the amended C2 at a concrete running state. -/
theorem C2_start_second_noop_witness :
    start ⟨true, []⟩ = (⟨true, []⟩, .warnedAlreadyRunning) :=
  C2_start_second_noop ⟨true, []⟩ rfl

/-! ### Expiry sweep (`BotScheduler.check_expired_subscriptions`)

Data model from `src/database/models.py` (`subscriptions` table,
`PRIMARY KEY (user_id, channel_id)`); datetimes are modelled as integers,
only their ordering is used.  The transport (aiogram `Bot`) and the
settings lookup are modelled as an environment of response functions:

* `premium_channel` — `SettingsManager.get_premium_channel_id(owner_id)`
  (`none` models any falsy result — no setting and no fallback row — which
  the sweep skips with a warning);
* `bot_member` — `bot.get_chat_member(chan, bot.id)`; `none` models a
  raised exception (logged at debug level and ignored);
* `chat_member` — `bot.get_chat_member(chan, user_id)`; `none` models a
  raised exception (logged at debug level and ignored);
* `ban_member` — `bot.ban_chat_member(chan, user_id)` outcomes;
* `update_ok` — whether `update_subscription_status(user, chan, _)`
  persists the write (it catches all storage errors internally and
  returns a boolean which the sweep ignores, so the control flow does not
  depend on it). -/

/-- One row of the `subscriptions` table as read by
`get_expired_subscriptions` (the `created_at` column is informational and
not read by the sweep). -/
structure Subscription where
  user_id : Int
  owner_id : Int
  channel_id : Int
  username : String
  full_name : String
  start_date : Int
  end_date : Int
  tier : String
  status : String
deriving Repr, DecidableEq

/-- The primary key of a subscription row. -/
def subKey (s : Subscription) : Int × Int := (s.user_id, s.channel_id)

/-- `aiogram.enums.ChatMemberStatus`. -/
inductive ChatMemberStatus where
  | creator
  | administrator
  | member
  | restricted
  | left
  | kicked
deriving Repr, DecidableEq

/-- The fields of the bot's own `get_chat_member` result read by the
pre-check: `status` and `can_restrict_members`. -/
structure BotMemberInfo where
  status : ChatMemberStatus
  can_restrict_members : Bool
deriving Repr, DecidableEq

/-- Outcome of `bot.ban_chat_member`:

* `ok` — the call succeeded;
* `badRequestRights` — `TelegramBadRequest` whose text contains
  `"not enough rights"` or `"restrict"`;
* `badRequestOther` — any other `TelegramBadRequest`;
* `otherError` — any non-`TelegramBadRequest` exception (caught by the
  outer per-record `except Exception` handler). -/
inductive BanOutcome where
  | ok
  | badRequestRights
  | badRequestOther
  | otherError
deriving Repr, DecidableEq

/-- Environment of transport/storage responses consumed by one sweep. -/
structure SweepEnv where
  premium_channel : Int → Option Int
  bot_member : Int → Option BotMemberInfo
  chat_member : Int → Int → Option ChatMemberStatus
  ban_member : Int → Int → BanOutcome
  update_ok : Int → Int → Bool

/-- Observable side effects of the sweep, in program order.  Log events
record their level (`warn…`/`error…`); `notify…` events are
`bot.send_message` calls to the owner; `removeMember` is the
`ban_chat_member` call attempt; `setStatusCall` is the
`update_subscription_status` storage call. -/
inductive SweepEvent where
  | warnNoChannel (owner user : Int)
  | warnNoBanRight (chan : Int)
  | notifyMissingRights (owner chan : Int)
  | setStatusCall (user chan : Int) (status : String)
  | warnUntouchable (chan user : Int)
  | notifyUntouchable (owner user chan : Int)
  | removeMember (chan user : Int)
  | errorBanFailed (chan user : Int)
  | errorGeneric (user : Int)
  | notifyAutoBan (owner user chan : Int)
deriving Repr, DecidableEq

/-- Per-record outcome before the database write is applied: whether
`update_subscription_status(user, channel_id, "banned")` was called,
whether the channel was added to `channels_no_ban_right`, and the emitted
events. -/
structure CoreResult where
  upd : Bool
  addChan : Bool
  events : List SweepEvent
deriving Repr, DecidableEq

/-- Steps 2–4 of the per-record loop body (`ban_chat_member` and its
handlers, lines 202–277).  `inS` is the single membership test of the
channel in `channels_no_ban_right` made by this iteration (the set cannot
change between the reads at lines 133, 165 and 211 within one iteration,
so they agree).  On a rights-class `TelegramBadRequest` the handler logs,
remembers the channel and notifies the owner only the first time, and
`continue`s WITHOUT updating the subscription status; any other
`TelegramBadRequest` `continue`s silently; any other exception reaches the
outer handler which logs it. -/
def banCore (env : SweepEnv) (inS : Bool) (c : Int) (sub : Subscription) :
    CoreResult :=
  match env.ban_member c sub.user_id with
  | .badRequestRights =>
      ⟨false, true,
        [.removeMember c sub.user_id, .errorBanFailed c sub.user_id] ++
          (if inS then [] else [.notifyMissingRights sub.owner_id c])⟩
  | .badRequestOther =>
      ⟨false, false, [.removeMember c sub.user_id]⟩
  | .otherError =>
      ⟨false, false, [.removeMember c sub.user_id, .errorGeneric sub.user_id]⟩
  | .ok =>
      ⟨true, false,
        [.removeMember c sub.user_id,
         .setStatusCall sub.user_id sub.channel_id "banned",
         .notifyAutoBan sub.owner_id sub.user_id sub.channel_id]⟩

/-- Step 1 of the loop body (lines 171–200): if the target user is an
administrator or the creator of the channel, warn, mark the subscription
banned, notify the owner to remove the user manually, and continue; if the
lookup raises, log at debug level and fall through to the ban call. -/
def untouchableCore (env : SweepEnv) (inS : Bool) (c : Int)
    (sub : Subscription) : CoreResult :=
  match env.chat_member c sub.user_id with
  | some st =>
      if st = .administrator ∨ st = .creator then
        ⟨true, false,
          [.warnUntouchable c sub.user_id,
           .setStatusCall sub.user_id sub.channel_id "banned",
           .notifyUntouchable sub.owner_id sub.user_id sub.channel_id]⟩
      else banCore env inS c sub
  | none => banCore env inS c sub

/-- The loop body after the premium channel resolved to `c` (lines
132–277).  If `c` is already in `channels_no_ban_right`, mark banned and
continue (line 165); otherwise run the pre-check (step 0): when the bot is
an administrator without `can_restrict_members`, remember the channel,
warn, notify the owner and mark the subscription banned; when the
pre-check does not flag (or its lookup raises), fall through to the
untouchable check and the ban call. -/
def processCoreChan (env : SweepEnv) (inS : Bool) (c : Int)
    (sub : Subscription) : CoreResult :=
  if inS then
    ⟨true, false, [.setStatusCall sub.user_id sub.channel_id "banned"]⟩
  else
    match env.bot_member c with
    | some info =>
        if info.status = .administrator ∧ info.can_restrict_members = false then
          ⟨true, true,
            [.warnNoBanRight c,
             .notifyMissingRights sub.owner_id c,
             .setStatusCall sub.user_id sub.channel_id "banned"]⟩
        else untouchableCore env inS c sub
    | none => untouchableCore env inS c sub

/-- `update_subscription_status(user_id, channel_id, status)`: an SQL
`UPDATE ... WHERE user_id = ? AND channel_id = ?`. -/
def update_subscription_status (db : List Subscription) (u c : Int)
    (st : String) : List Subscription :=
  db.map fun s =>
    if s.user_id = u ∧ s.channel_id = c then { s with status := st } else s

/-- Result of processing a prefix of the sweep: current database contents,
current `channels_no_ban_right` set, events so far. -/
structure SweepState where
  db : List Subscription
  flagged : List Int
  events : List SweepEvent
deriving Repr, DecidableEq

/-- One iteration of the `for subscription in expired_subs` loop.  The
database write of `update_subscription_status` persists exactly when the
storage reports success (`env.update_ok`); the method swallows storage
errors and returns a boolean that the sweep ignores, so control flow is
the same either way. -/
def processOne (env : SweepEnv) (db : List Subscription) (S : List Int)
    (sub : Subscription) : SweepState :=
  match env.premium_channel sub.owner_id with
  | none => ⟨db, S, [.warnNoChannel sub.owner_id sub.user_id]⟩
  | some c =>
    let r := processCoreChan env (decide (c ∈ S)) c sub
    ⟨if r.upd ∧ env.update_ok sub.user_id sub.channel_id then
        update_subscription_status db sub.user_id sub.channel_id "banned"
      else db,
     if r.addChan then c :: S else S,
     r.events⟩

/-- The whole loop over the (frozen) list of expired subscriptions. -/
def sweepGo (env : SweepEnv) (db : List Subscription) (S : List Int) :
    List Subscription → SweepState
  | [] => ⟨db, S, []⟩
  | sub :: rest =>
    let r := processOne env db S sub
    let r' := sweepGo env r.db r.flagged rest
    ⟨r'.db, r'.flagged, r.events ++ r'.events⟩

/-- `SubscriptionManager.get_expired_subscriptions`:
`SELECT * FROM subscriptions WHERE status = 'active' AND end_date <= now`
(no ORDER BY; rows are returned in the backend's stable storage order,
modelled as the list order of `db`). -/
def get_expired_subscriptions (db : List Subscription) (now : Int) :
    List Subscription :=
  db.filter fun s => decide (s.status = "active" ∧ s.end_date ≤ now)

/-- `BotScheduler.check_expired_subscriptions`: fetch the expired active
subscriptions once, then run the loop with a fresh (empty)
`channels_no_ban_right` set. -/
def check_expired_subscriptions (env : SweepEnv) (db : List Subscription)
    (now : Int) : SweepState :=
  sweepGo env db [] (get_expired_subscriptions db now)

/-! Step lemmas for the sweep. -/

lemma removeMember_ban_core {env : SweepEnv} {b : Bool} {c : Int}
    {sub : Subscription} {ch u : Int}
    (h : SweepEvent.removeMember ch u ∈ (banCore env b c sub).events) :
    ch = c := by
  rcases hb : env.ban_member c sub.user_id with _ | _ | _ | _ <;>
    simp [banCore, hb] at h <;> tauto

lemma removeMember_untouchable_core {env : SweepEnv} {b : Bool} {c : Int}
    {sub : Subscription} {ch u : Int}
    (h : SweepEvent.removeMember ch u ∈ (untouchableCore env b c sub).events) :
    ch = c := by
  rcases hm : env.chat_member c sub.user_id with _ | mst
  · rw [untouchableCore, hm] at h
    exact removeMember_ban_core h
  · rw [untouchableCore, hm] at h
    simp only at h
    split at h
    · simp at h
    · exact removeMember_ban_core h

lemma removeMember_core_chan {env : SweepEnv} {b : Bool} {c : Int}
    {sub : Subscription} {ch u : Int}
    (h : SweepEvent.removeMember ch u ∈ (processCoreChan env b c sub).events) :
    ch = c ∧ b = false := by
  cases b
  · refine ⟨?_, rfl⟩
    rw [processCoreChan] at h
    simp only [Bool.false_eq_true, if_false] at h
    rcases hbm : env.bot_member c with _ | info
    · rw [hbm] at h
      exact removeMember_untouchable_core h
    · rw [hbm] at h
      simp only at h
      split at h
      · simp at h
      · exact removeMember_untouchable_core h
  · exfalso
    rw [processCoreChan] at h
    simp at h

lemma processOne_flagged_mono (env : SweepEnv) (db : List Subscription)
    (S : List Int) (sub : Subscription) :
    ∀ c ∈ S, c ∈ (processOne env db S sub).flagged := by
  intro c hc
  unfold processOne
  rcases env.premium_channel sub.owner_id with _ | c0
  · exact hc
  · simp only
    split
    · exact List.mem_cons_of_mem _ hc
    · exact hc

lemma processOne_removeMember {env : SweepEnv} {db : List Subscription}
    {S : List Int} {sub : Subscription} {ch u : Int}
    (h : SweepEvent.removeMember ch u ∈ (processOne env db S sub).events) :
    ch ∉ S := by
  unfold processOne at h
  rcases hprem : env.premium_channel sub.owner_id with _ | c0 <;>
    rw [hprem] at h
  · simp at h
  · obtain ⟨hch, hb⟩ := removeMember_core_chan h
    subst hch
    intro hmem
    rw [decide_eq_false_iff_not] at hb
    exact hb hmem

/-- Once a channel is in `channels_no_ban_right`, no `ban_chat_member`
call is ever attempted for it during the remainder of the sweep. -/
lemma sweepGo_no_removeMember {env : SweepEnv} {c : Int} :
    ∀ (subs : List Subscription) (db : List Subscription) (S : List Int),
    c ∈ S → ∀ u, SweepEvent.removeMember c u ∉ (sweepGo env db S subs).events := by
  intro subs
  induction subs with
  | nil => intro db S _ u h; simp [sweepGo] at h
  | cons sub rest ih =>
    intro db S hc u h
    simp only [sweepGo, List.mem_append] at h
    rcases h with h | h
    · exact processOne_removeMember h hc
    · exact ih _ _ (processOne_flagged_mono env db S sub c hc) u h

lemma sweepGo_append (env : SweepEnv) (l₁ l₂ : List Subscription) :
    ∀ (db : List Subscription) (S : List Int),
    sweepGo env db S (l₁ ++ l₂)
      = ⟨(sweepGo env (sweepGo env db S l₁).db (sweepGo env db S l₁).flagged l₂).db,
         (sweepGo env (sweepGo env db S l₁).db (sweepGo env db S l₁).flagged l₂).flagged,
         (sweepGo env db S l₁).events
           ++ (sweepGo env (sweepGo env db S l₁).db (sweepGo env db S l₁).flagged l₂).events⟩ := by
  induction l₁ with
  | nil => intro db S; simp [sweepGo]
  | cons sub rest ih =>
    intro db S
    simp only [List.cons_append, sweepGo, List.append_eq]
    rw [ih]
    simp [List.append_assoc]

lemma processOne_eq {env : SweepEnv} (db : List Subscription) (S : List Int)
    {sub : Subscription} {c : Int}
    (hprem : env.premium_channel sub.owner_id = some c) :
    processOne env db S sub
      = ⟨if (processCoreChan env (decide (c ∈ S)) c sub).upd
            ∧ env.update_ok sub.user_id sub.channel_id then
           update_subscription_status db sub.user_id sub.channel_id "banned"
         else db,
         if (processCoreChan env (decide (c ∈ S)) c sub).addChan then c :: S else S,
         (processCoreChan env (decide (c ∈ S)) c sub).events⟩ := by
  simp only [processOne, hprem]

lemma core_untouchable {env : SweepEnv} {c : Int} {sub : Subscription}
    {mst : ChatMemberStatus}
    (hpre : ∀ info, env.bot_member c = some info →
      ¬(info.status = .administrator ∧ info.can_restrict_members = false))
    (hu : env.chat_member c sub.user_id = some mst)
    (hadm : mst = .administrator ∨ mst = .creator) :
    processCoreChan env false c sub
      = ⟨true, false,
          [.warnUntouchable c sub.user_id,
           .setStatusCall sub.user_id sub.channel_id "banned",
           .notifyUntouchable sub.owner_id sub.user_id sub.channel_id]⟩ := by
  have htc : untouchableCore env false c sub
      = ⟨true, false,
          [.warnUntouchable c sub.user_id,
           .setStatusCall sub.user_id sub.channel_id "banned",
           .notifyUntouchable sub.owner_id sub.user_id sub.channel_id]⟩ := by
    rw [untouchableCore, hu]
    simp [hadm]
  rw [processCoreChan]
  simp only [Bool.false_eq_true, if_false]
  rcases hbm : env.bot_member c with _ | info
  · exact htc
  · simp only
    rw [if_neg (hpre info hbm)]
    exact htc

/-- C5: once a channel has entered `channels_no_ban_right` during a sweep
pass — i.e. after the prefix `l₁` of the expired-subscriptions list has
been processed the channel is in the set — no `ban_chat_member` call is
attempted for any subscription on that channel while the remaining
records `l₂` of the same sweep pass are processed.  (The first conjunct
identifies the tail of the sweep's event trace with the events of
processing `l₂`.) -/
theorem C5_enforcement_precedence (env : SweepEnv) (db : List Subscription)
    (now : Int) (l₁ l₂ : List Subscription) (c : Int)
    (hsplit : get_expired_subscriptions db now = l₁ ++ l₂)
    (hc : c ∈ (sweepGo env db [] l₁).flagged) :
    (check_expired_subscriptions env db now).events
      = (sweepGo env db [] l₁).events
        ++ (sweepGo env (sweepGo env db [] l₁).db
              (sweepGo env db [] l₁).flagged l₂).events
    ∧ ∀ u, SweepEvent.removeMember c u
        ∉ (sweepGo env (sweepGo env db [] l₁).db
             (sweepGo env db [] l₁).flagged l₂).events := by
  constructor
  · rw [check_expired_subscriptions, hsplit, sweepGo_append]
  · exact fun u => sweepGo_no_removeMember l₂ _ _ hc u

/-- Concrete inputs for the C5 witness: two expired subscriptions on the
same premium channel, where the pre-check discovers the bot lacks
`can_restrict_members` on the first record. -/
def subA : Subscription := ⟨42, 7, 100, "a", "Alice", 0, 5, "gold", "active"⟩

def subB : Subscription := ⟨43, 7, 100, "b", "Bob", 0, 5, "gold", "active"⟩

def envC5 : SweepEnv :=
  ⟨fun _ => some 100, fun _ => some ⟨.administrator, false⟩,
   fun _ _ => some .member, fun _ _ => .ok, fun _ _ => true⟩

def dbC5 : List Subscription := [subA, subB]

/-- Witness for C5 at the concrete split `[subA] ++ [subB]`. -/
theorem C5_enforcement_precedence_witness :
    (check_expired_subscriptions envC5 dbC5 10).events
      = (sweepGo envC5 dbC5 [] [subA]).events
        ++ (sweepGo envC5 (sweepGo envC5 dbC5 [] [subA]).db
              (sweepGo envC5 dbC5 [] [subA]).flagged [subB]).events
    ∧ ∀ u, SweepEvent.removeMember 100 u
        ∉ (sweepGo envC5 (sweepGo envC5 dbC5 [] [subA]).db
             (sweepGo envC5 dbC5 [] [subA]).flagged [subB]).events :=
  C5_enforcement_precedence envC5 dbC5 10 [subA] [subB] 100
    (by decide) (by decide)

/-- C6: when the sweep reaches the untouchable check for a subscription
(premium channel configured, channel not already flagged, pre-check not
flagging) and the user's role on the channel is administrator or creator,
the record is marked banned directly — the status-update call is made and,
when storage succeeds, the row becomes `"banned"` — no `ban_chat_member`
call is made, and the owner is notified that the user must be removed
manually. -/
theorem C6_untouchable_direct_ban (env : SweepEnv) (db : List Subscription)
    (S : List Int) (sub : Subscription) (c : Int) (mst : ChatMemberStatus)
    (hprem : env.premium_channel sub.owner_id = some c)
    (hS : c ∉ S)
    (hpre : ∀ info, env.bot_member c = some info →
      ¬(info.status = .administrator ∧ info.can_restrict_members = false))
    (hu : env.chat_member c sub.user_id = some mst)
    (hadm : mst = .administrator ∨ mst = .creator)
    (hok : env.update_ok sub.user_id sub.channel_id = true) :
    processOne env db S sub
      = ⟨update_subscription_status db sub.user_id sub.channel_id "banned", S,
         [.warnUntouchable c sub.user_id,
          .setStatusCall sub.user_id sub.channel_id "banned",
          .notifyUntouchable sub.owner_id sub.user_id sub.channel_id]⟩
    ∧ ∀ ch u, SweepEvent.removeMember ch u ∉ (processOne env db S sub).events := by
  have hb : decide (c ∈ S) = false := decide_eq_false hS
  have heq := processOne_eq db S hprem
  rw [hb, core_untouchable hpre hu hadm] at heq
  simp only [hok] at heq
  constructor
  · rw [heq]
    simp
  · intro ch u hmem
    rw [heq] at hmem
    simp at hmem

/-- Environment for the C6 witness: user 42 is an administrator of
channel 100. -/
def envC6 : SweepEnv :=
  ⟨fun _ => some 100, fun _ => some ⟨.administrator, true⟩,
   fun _ _ => some .administrator, fun _ _ => .ok, fun _ _ => true⟩

/-- Witness for C6 at the concrete record `subA`. -/
theorem C6_untouchable_direct_ban_witness :
    processOne envC6 [subA] [] subA
      = ⟨update_subscription_status [subA] subA.user_id subA.channel_id "banned", [],
         [.warnUntouchable 100 subA.user_id,
          .setStatusCall subA.user_id subA.channel_id "banned",
          .notifyUntouchable subA.owner_id subA.user_id subA.channel_id]⟩
    ∧ ∀ ch u, SweepEvent.removeMember ch u ∉ (processOne envC6 [subA] [] subA).events :=
  C6_untouchable_direct_ban envC6 [subA] [] subA 100 .administrator
    rfl (by decide) (by intro info hinfo; cases hinfo; decide) rfl
    (Or.inl rfl) rfl

/-! Counting the missing-`can_restrict_members` owner notifications. -/

/-- Whether an event is the owner notification about the missing
"Ban users" capability on channel `c`. -/
def isMissingRightsFor (c : Int) : SweepEvent → Bool
  | .notifyMissingRights _ ch => decide (ch = c)
  | _ => false

/-- Number of missing-capability notifications for channel `c` in an
event trace. -/
def countMissingRights (c : Int) (evs : List SweepEvent) : ℕ :=
  (evs.filter (isMissingRightsFor c)).length

lemma countMissingRights_append (c : Int) (l₁ l₂ : List SweepEvent) :
    countMissingRights c (l₁ ++ l₂)
      = countMissingRights c l₁ + countMissingRights c l₂ := by
  simp [countMissingRights]

lemma banCore_missing (env : SweepEnv) (b : Bool) (c0 c : Int)
    (sub : Subscription) :
    countMissingRights c (banCore env b c0 sub).events ≤ 1
    ∧ (b = true → countMissingRights c (banCore env b c0 sub).events = 0)
    ∧ (c0 ≠ c → countMissingRights c (banCore env b c0 sub).events = 0)
    ∧ (1 ≤ countMissingRights c (banCore env b c0 sub).events →
        (banCore env b c0 sub).addChan = true ∧ c0 = c) := by
  rcases hb : env.ban_member c0 sub.user_id with _ | _ | _ | _ <;>
    cases b <;>
    by_cases hc0 : c0 = c <;>
    simp_all [banCore, hb, countMissingRights, isMissingRightsFor]

lemma untouchableCore_missing (env : SweepEnv) (b : Bool) (c0 c : Int)
    (sub : Subscription) :
    countMissingRights c (untouchableCore env b c0 sub).events ≤ 1
    ∧ (b = true → countMissingRights c (untouchableCore env b c0 sub).events = 0)
    ∧ (c0 ≠ c → countMissingRights c (untouchableCore env b c0 sub).events = 0)
    ∧ (1 ≤ countMissingRights c (untouchableCore env b c0 sub).events →
        (untouchableCore env b c0 sub).addChan = true ∧ c0 = c) := by
  rw [untouchableCore]
  rcases hm : env.chat_member c0 sub.user_id with _ | mst
  · exact banCore_missing env b c0 c sub
  · simp only
    split
    · simp [countMissingRights, isMissingRightsFor]
    · exact banCore_missing env b c0 c sub

/-- The per-record loop body takes one of three shapes: the
already-flagged shortcut (line 165), the pre-check flagging branch, or a
fall-through to the untouchable check. -/
lemma core_cases (env : SweepEnv) (b : Bool) (c0 : Int) (sub : Subscription) :
    (processCoreChan env b c0 sub
        = ⟨true, false, [.setStatusCall sub.user_id sub.channel_id "banned"]⟩
      ∧ b = true)
    ∨ (processCoreChan env b c0 sub
        = ⟨true, true,
           [.warnNoBanRight c0, .notifyMissingRights sub.owner_id c0,
            .setStatusCall sub.user_id sub.channel_id "banned"]⟩
      ∧ b = false)
    ∨ processCoreChan env b c0 sub = untouchableCore env b c0 sub := by
  rw [processCoreChan]
  cases b
  · simp only [Bool.false_eq_true, if_false]
    rcases env.bot_member c0 with _ | info
    · right; right; rfl
    · simp only
      split
      · right; left; exact ⟨rfl, by trivial⟩
      · right; right; rfl
  · left
    exact ⟨rfl, rfl⟩

/-- The untouchable check either bans the admin/creator directly or falls
through to the removal call. -/
lemma untouchable_cases (env : SweepEnv) (b : Bool) (c0 : Int)
    (sub : Subscription) :
    untouchableCore env b c0 sub
        = ⟨true, false,
           [.warnUntouchable c0 sub.user_id,
            .setStatusCall sub.user_id sub.channel_id "banned",
            .notifyUntouchable sub.owner_id sub.user_id sub.channel_id]⟩
    ∨ untouchableCore env b c0 sub = banCore env b c0 sub := by
  rw [untouchableCore]
  rcases env.chat_member c0 sub.user_id with _ | mst
  · right; rfl
  · simp only
    split
    · left; rfl
    · right; rfl

lemma core_missing (env : SweepEnv) (b : Bool) (c0 c : Int)
    (sub : Subscription) :
    countMissingRights c (processCoreChan env b c0 sub).events ≤ 1
    ∧ (b = true → countMissingRights c (processCoreChan env b c0 sub).events = 0)
    ∧ (c0 ≠ c → countMissingRights c (processCoreChan env b c0 sub).events = 0)
    ∧ (1 ≤ countMissingRights c (processCoreChan env b c0 sub).events →
        (processCoreChan env b c0 sub).addChan = true ∧ c0 = c) := by
  rcases core_cases env b c0 sub with ⟨hcv, hb⟩ | ⟨hcv, hb⟩ | hcv
  · rw [hcv]
    simp [countMissingRights, isMissingRightsFor]
  · rw [hcv]
    subst hb
    by_cases hc0 : c0 = c
    · subst hc0
      simp [countMissingRights, isMissingRightsFor]
    · simp [countMissingRights, isMissingRightsFor, hc0]
  · rw [hcv]
    rcases untouchable_cases env b c0 sub with huv | huv
    · rw [huv]
      simp [countMissingRights, isMissingRightsFor]
    · rw [huv]
      exact banCore_missing env b c0 c sub

lemma processOne_missing (env : SweepEnv) (db : List Subscription)
    (S : List Int) (sub : Subscription) (c : Int) :
    countMissingRights c (processOne env db S sub).events ≤ 1
    ∧ (c ∈ S → countMissingRights c (processOne env db S sub).events = 0)
    ∧ (1 ≤ countMissingRights c (processOne env db S sub).events →
        c ∈ (processOne env db S sub).flagged) := by
  rcases hprem : env.premium_channel sub.owner_id with _ | c0
  · simp [processOne, hprem, countMissingRights, isMissingRightsFor]
  · rw [processOne_eq db S hprem]
    obtain ⟨h1, h2, h3, h4⟩ := core_missing env (decide (c0 ∈ S)) c0 c sub
    refine ⟨h1, ?_, ?_⟩
    · intro hcS
      by_cases hc0 : c0 = c
      · subst hc0
        exact h2 (by simpa using hcS)
      · exact h3 hc0
    · intro hone
      obtain ⟨hadd, hc0⟩ := h4 hone
      subst hc0
      simp only [hadd, if_true]
      exact List.mem_cons_self _ _

/-- Across one whole sweep pass, at most one missing-capability
notification is emitted per channel (none when the channel is already
flagged at the start). -/
lemma sweepGo_missing_bound (env : SweepEnv) (c : Int) :
    ∀ (subs db : List Subscription) (S : List Int),
    countMissingRights c (sweepGo env db S subs).events
      ≤ if c ∈ S then 0 else 1 := by
  intro subs
  induction subs with
  | nil => intro db S; simp [sweepGo, countMissingRights]
  | cons sub rest ih =>
    intro db S
    simp only [sweepGo, countMissingRights_append]
    obtain ⟨h1, h2, h3⟩ := processOne_missing env db S sub c
    by_cases hcS : c ∈ S
    · have hstep := h2 hcS
      have htail := ih (processOne env db S sub).db (processOne env db S sub).flagged
      rw [if_pos (processOne_flagged_mono env db S sub c hcS)] at htail
      rw [if_pos hcS]
      omega
    · rw [if_neg hcS]
      by_cases hone : 1 ≤ countMissingRights c (processOne env db S sub).events
      · have hflag := h3 hone
        have htail := ih (processOne env db S sub).db (processOne env db S sub).flagged
        rw [if_pos hflag] at htail
        omega
      · have hzero : countMissingRights c (processOne env db S sub).events = 0 := by omega
        have htail := ih (processOne env db S sub).db (processOne env db S sub).flagged
        have : countMissingRights c
            (sweepGo env (processOne env db S sub).db
              (processOne env db S sub).flagged rest).events ≤ 1 := by
          by_cases hf : c ∈ (processOne env db S sub).flagged
          · rw [if_pos hf] at htail; omega
          · rw [if_neg hf] at htail; omega
        omega

/-- The per-record path conditions under which the sweep reaches the
`ban_chat_member` call: premium channel resolved, channel not flagged,
pre-check not flagging (either it raised or the bot is not an
administrator lacking `can_restrict_members`), and the target user not an
administrator/creator (or that lookup raised). -/
lemma core_to_ban {env : SweepEnv} {c : Int} {sub : Subscription}
    (hpre : ∀ info, env.bot_member c = some info →
      ¬(info.status = .administrator ∧ info.can_restrict_members = false))
    (huntouch : ∀ mst, env.chat_member c sub.user_id = some mst →
      mst ≠ .administrator ∧ mst ≠ .creator) :
    processCoreChan env false c sub = banCore env false c sub := by
  have htc : untouchableCore env false c sub = banCore env false c sub := by
    rw [untouchableCore]
    rcases hm : env.chat_member c sub.user_id with _ | mst
    · rfl
    · simp only
      rw [if_neg]
      rintro (h | h)
      · exact (huntouch mst hm).1 h
      · exact (huntouch mst hm).2 h
  rw [processCoreChan]
  simp only [Bool.false_eq_true, if_false]
  rcases hbm : env.bot_member c with _ | info
  · exact htc
  · simp only
    rw [if_neg (hpre info hbm)]
    exact htc

/-- C1 amended: when `ban_chat_member` fails with a rights-class
`TelegramBadRequest` that the pre-check did not catch, the channel is
remembered in `channels_no_ban_right` for the rest of the sweep (so no
further removal call is attempted on it), the error is logged and the
owner is notified — at most once per channel per sweep — but the
triggering subscription's status is NOT updated: the record stays active
and its row is unchanged. -/
theorem C1_transport_rights_error (env : SweepEnv) (db : List Subscription)
    (S : List Int) (sub : Subscription) (c : Int)
    (hprem : env.premium_channel sub.owner_id = some c)
    (hS : c ∉ S)
    (hpre : ∀ info, env.bot_member c = some info →
      ¬(info.status = .administrator ∧ info.can_restrict_members = false))
    (huntouch : ∀ mst, env.chat_member c sub.user_id = some mst →
      mst ≠ .administrator ∧ mst ≠ .creator)
    (hban : env.ban_member c sub.user_id = .badRequestRights) :
    processOne env db S sub
      = ⟨db, c :: S,
         [.removeMember c sub.user_id, .errorBanFailed c sub.user_id,
          .notifyMissingRights sub.owner_id c]⟩
    ∧ (∀ (rest : List Subscription) (db' : List Subscription) (u : Int),
        SweepEvent.removeMember c u ∉ (sweepGo env db' (c :: S) rest).events)
    ∧ ∀ (db₀ : List Subscription) (now : Int),
        countMissingRights c (check_expired_subscriptions env db₀ now).events ≤ 1 := by
  have hb : decide (c ∈ S) = false := decide_eq_false hS
  have hbanCore : banCore env false c sub
      = ⟨false, true,
         [.removeMember c sub.user_id, .errorBanFailed c sub.user_id,
          .notifyMissingRights sub.owner_id c]⟩ := by
    rw [banCore, hban]
    simp
  have heq := processOne_eq db S hprem
  rw [hb, core_to_ban hpre huntouch, hbanCore] at heq
  refine ⟨?_, ?_, ?_⟩
  · rw [heq]
    simp
  · intro rest db' u
    exact sweepGo_no_removeMember rest db' (c :: S) (List.mem_cons_self c S) u
  · intro db₀ now
    have := sweepGo_missing_bound env c (get_expired_subscriptions db₀ now) db₀ []
    simpa [check_expired_subscriptions] using this

/-- Environment for the C1 counterexample and witness: the pre-check
lookup raises (so it cannot catch the missing right), the target user is
an ordinary member, and the removal call fails with the rights-class bad
request. -/
def envC1 : SweepEnv :=
  ⟨fun _ => some 100, fun _ => none, fun _ _ => some .member,
   fun _ _ => .badRequestRights, fun _ _ => true⟩

/-- Counterexample to C1 as stated: at this input the sweep leaves the
triggering record's row unchanged — its status stays `"active"`, no
`setStatusCall` is made for it (the event trace is exactly the removal
attempt, the error log, and the one owner notification) — whereas the
claim asserts the subscription's status is set to banned. -/
theorem C1_counterexample :
    (check_expired_subscriptions envC1 [subA] 10).db = [subA]
    ∧ subA.status = "active"
    ∧ (check_expired_subscriptions envC1 [subA] 10).events
        = [.removeMember 100 42, .errorBanFailed 100 42,
           .notifyMissingRights 7 100] := by
  refine ⟨by decide, rfl, by decide⟩

/-- Witness for the amended C1 at the concrete record `subA`. -/
theorem C1_transport_rights_error_witness :
    processOne envC1 [subA] [] subA
      = ⟨[subA], [100],
         [.removeMember 100 subA.user_id, .errorBanFailed 100 subA.user_id,
          .notifyMissingRights subA.owner_id 100]⟩
    ∧ (∀ (rest : List Subscription) (db' : List Subscription) (u : Int),
        SweepEvent.removeMember 100 u ∉ (sweepGo envC1 db' ([100] : List Int) rest).events)
    ∧ ∀ (db₀ : List Subscription) (now : Int),
        countMissingRights 100 (check_expired_subscriptions envC1 db₀ now).events ≤ 1 :=
  C1_transport_rights_error envC1 [subA] [] subA 100 rfl (by decide)
    (by intro info hinfo; cases hinfo)
    (by intro mst hmst; injection hmst with h2; subst h2; exact ⟨by decide, by decide⟩)
    rfl

/-- C9 amended: when the removal call fails with a transport error outside
the rights class, the record's status is left unchanged (active, so it is
re-attempted next tick), no owner notification is sent, and the sweep
continues; a non-bad-request exception is logged by the outer handler,
while a `TelegramBadRequest` outside the rights class is skipped with no
log entry at all. -/
theorem C9_other_transport_error (env : SweepEnv) (db : List Subscription)
    (S : List Int) (sub : Subscription) (c : Int)
    (hprem : env.premium_channel sub.owner_id = some c)
    (hS : c ∉ S)
    (hpre : ∀ info, env.bot_member c = some info →
      ¬(info.status = .administrator ∧ info.can_restrict_members = false))
    (huntouch : ∀ mst, env.chat_member c sub.user_id = some mst →
      mst ≠ .administrator ∧ mst ≠ .creator) :
    (env.ban_member c sub.user_id = .badRequestOther →
      processOne env db S sub = ⟨db, S, [.removeMember c sub.user_id]⟩)
    ∧ (env.ban_member c sub.user_id = .otherError →
      processOne env db S sub
        = ⟨db, S, [.removeMember c sub.user_id, .errorGeneric sub.user_id]⟩) := by
  have hb : decide (c ∈ S) = false := decide_eq_false hS
  have heq := processOne_eq db S hprem
  rw [hb, core_to_ban hpre huntouch] at heq
  constructor
  · intro hban
    rw [heq, banCore, hban]
    simp
  · intro hban
    rw [heq, banCore, hban]
    simp

/-- Environment for the C9 counterexample and witness: like `envC1` but
the removal call fails with a bad request outside the rights class. -/
def envC9 : SweepEnv :=
  ⟨fun _ => some 100, fun _ => none, fun _ _ => some .member,
   fun _ _ => .badRequestOther, fun _ _ => true⟩

/-- Counterexample to C9 as stated: at this input the removal call fails
with a `TelegramBadRequest` outside the rights class; the record stays
active and no notification is sent — but the whole event trace is just
the removal attempt: no log entry of any level is produced, whereas the
claim asserts the sweep logs the error. -/
theorem C9_counterexample :
    (check_expired_subscriptions envC9 [subA] 10).events
      = [.removeMember 100 42]
    ∧ (check_expired_subscriptions envC9 [subA] 10).db = [subA] := by
  refine ⟨by decide, by decide⟩

/-- Witness for the amended C9 at the concrete record `subA`. -/
theorem C9_other_transport_error_witness :
    (envC9.ban_member 100 subA.user_id = .badRequestOther →
      processOne envC9 [subA] [] subA
        = ⟨[subA], [], [.removeMember 100 subA.user_id]⟩)
    ∧ (envC9.ban_member 100 subA.user_id = .otherError →
      processOne envC9 [subA] [] subA
        = ⟨[subA], [], [.removeMember 100 subA.user_id,
                        .errorGeneric subA.user_id]⟩) :=
  C9_other_transport_error envC9 [subA] [] subA 100 rfl (by decide)
    (by intro info hinfo; cases hinfo)
    (by intro mst hmst; injection hmst with h2; subst h2; exact ⟨by decide, by decide⟩)

/-! ### Idempotence of the sweep (C4)

Every database write of the sweep is
`update_subscription_status(user, channel, "banned")` for the record being
processed, applied when storage succeeds.  We characterise the sweep's
database effect by the list of successfully written keys, and show that
the records selected by a second run are exactly the survivors of the
first run, whose replay writes nothing. -/

/-- Set the status of every row whose key is in `K` to `"banned"`. -/
def setBannedKeys (db : List Subscription) (K : List (Int × Int)) :
    List Subscription :=
  db.map fun s => if subKey s ∈ K then { s with status := "banned" } else s

/-- The per-record decision relevant to the database: whether this
iteration's status write persists, and the set of flagged channels passed
to the next iteration. -/
def stepUpd (env : SweepEnv) (S : List Int) (sub : Subscription) :
    Bool × List Int :=
  match env.premium_channel sub.owner_id with
  | none => (false, S)
  | some c =>
    let r := processCoreChan env (decide (c ∈ S)) c sub
    (r.upd && env.update_ok sub.user_id sub.channel_id,
     if r.addChan then c :: S else S)

/-- Keys successfully written to `"banned"` while processing `subs`. -/
def writtenKeys (env : SweepEnv) : List Int → List Subscription → List (Int × Int)
  | _, [] => []
  | S, sub :: rest =>
    (if (stepUpd env S sub).1 = true then [subKey sub] else [])
      ++ writtenKeys env (stepUpd env S sub).2 rest

/-- Records whose row was NOT successfully transitioned to banned. -/
def survivors (env : SweepEnv) : List Int → List Subscription → List Subscription
  | _, [] => []
  | S, sub :: rest =>
    (if (stepUpd env S sub).1 = true then [] else [sub])
      ++ survivors env (stepUpd env S sub).2 rest

lemma setBannedKeys_nil (db : List Subscription) : setBannedKeys db [] = db := by
  simp [setBannedKeys]

lemma update_eq_setBanned (db : List Subscription) (u c : Int) :
    update_subscription_status db u c "banned" = setBannedKeys db [(u, c)] := by
  unfold update_subscription_status setBannedKeys
  refine List.map_congr_left fun s _ => ?_
  by_cases h : s.user_id = u ∧ s.channel_id = c <;>
    simp [subKey, Prod.ext_iff, h]

lemma setBannedKeys_append (db : List Subscription) (K₁ K₂ : List (Int × Int)) :
    setBannedKeys (setBannedKeys db K₁) K₂ = setBannedKeys db (K₁ ++ K₂) := by
  unfold setBannedKeys
  rw [List.map_map]
  refine List.map_congr_left fun s _ => ?_
  by_cases h1 : subKey s ∈ K₁
  · have hkey : subKey ({ s with status := "banned" }) = subKey s := rfl
    by_cases h2 : subKey s ∈ K₂ <;>
      simp [Function.comp, h1, h2, hkey]
  · by_cases h2 : subKey s ∈ K₂ <;>
      simp [Function.comp, h1, h2]

lemma processOne_db_flagged (env : SweepEnv) (db : List Subscription)
    (S : List Int) (sub : Subscription) :
    (processOne env db S sub).db
      = (if (stepUpd env S sub).1 = true then
          update_subscription_status db sub.user_id sub.channel_id "banned"
        else db)
    ∧ (processOne env db S sub).flagged = (stepUpd env S sub).2 := by
  rcases hprem : env.premium_channel sub.owner_id with _ | c
  · simp [processOne, stepUpd, hprem]
  · rw [processOne_eq db S hprem]
    simp only [stepUpd, hprem]
    refine ⟨?_, by trivial⟩
    by_cases h1 : (processCoreChan env (decide (c ∈ S)) c sub).upd = true <;>
      by_cases h2 : env.update_ok sub.user_id sub.channel_id = true <;>
      simp [h1, h2]

lemma sweepGo_db (env : SweepEnv) :
    ∀ (subs db : List Subscription) (S : List Int),
    (sweepGo env db S subs).db = setBannedKeys db (writtenKeys env S subs) := by
  intro subs
  induction subs with
  | nil => intro db S; simp [sweepGo, writtenKeys, setBannedKeys_nil]
  | cons sub rest ih =>
    intro db S
    obtain ⟨hdb, hfl⟩ := processOne_db_flagged env db S sub
    simp only [sweepGo, writtenKeys]
    rw [ih, hdb, hfl]
    by_cases hw : (stepUpd env S sub).1 = true
    · rw [if_pos hw, if_pos hw, update_eq_setBanned, setBannedKeys_append]
      rfl
    · rw [if_neg hw, if_neg hw]
      simp

lemma get_expired_setBanned (K : List (Int × Int)) (now : Int) :
    ∀ db : List Subscription,
    get_expired_subscriptions (setBannedKeys db K) now
      = (get_expired_subscriptions db now).filter
          (fun s => decide (subKey s ∉ K)) := by
  intro db
  induction db with
  | nil => simp [get_expired_subscriptions, setBannedKeys]
  | cons s rest ih =>
    by_cases hk : subKey s ∈ K
    · have h1 : setBannedKeys (s :: rest) K
          = { s with status := "banned" } :: setBannedKeys rest K := by
        simp [setBannedKeys, hk]
      rw [h1]
      have h2 : get_expired_subscriptions
          (({ s with status := "banned" } : Subscription) :: setBannedKeys rest K) now
          = get_expired_subscriptions (setBannedKeys rest K) now := by
        simp [get_expired_subscriptions, List.filter_cons]
      rw [h2, ih]
      by_cases hp : s.status = "active" ∧ s.end_date ≤ now
      · have h3 : get_expired_subscriptions (s :: rest) now
            = s :: get_expired_subscriptions rest now := by
          simp [get_expired_subscriptions, List.filter_cons, hp]
        rw [h3, List.filter_cons]
        have hd : (decide (subKey s ∉ K)) = false := by simpa using hk
        rw [hd]
        simp
      · have h3 : get_expired_subscriptions (s :: rest) now
            = get_expired_subscriptions rest now := by
          simp [get_expired_subscriptions, List.filter_cons, hp]
        rw [h3]
    · have h1 : setBannedKeys (s :: rest) K = s :: setBannedKeys rest K := by
        simp [setBannedKeys, hk]
      rw [h1]
      by_cases hp : s.status = "active" ∧ s.end_date ≤ now
      · have h2 : get_expired_subscriptions (s :: setBannedKeys rest K) now
            = s :: get_expired_subscriptions (setBannedKeys rest K) now := by
          simp [get_expired_subscriptions, List.filter_cons, hp]
        have h3 : get_expired_subscriptions (s :: rest) now
            = s :: get_expired_subscriptions rest now := by
          simp [get_expired_subscriptions, List.filter_cons, hp]
        rw [h2, h3, ih, List.filter_cons]
        have hd : (decide (subKey s ∉ K)) = true := by simpa using hk
        rw [hd]
        simp
      · have h2 : get_expired_subscriptions (s :: setBannedKeys rest K) now
            = get_expired_subscriptions (setBannedKeys rest K) now := by
          simp [get_expired_subscriptions, List.filter_cons, hp]
        have h3 : get_expired_subscriptions (s :: rest) now
            = get_expired_subscriptions rest now := by
          simp [get_expired_subscriptions, List.filter_cons, hp]
        rw [h2, h3, ih]

lemma writtenKeys_subset (env : SweepEnv) :
    ∀ (subs : List Subscription) (S : List Int),
    ∀ k ∈ writtenKeys env S subs, k ∈ subs.map subKey := by
  intro subs
  induction subs with
  | nil => intro S k hk; simp [writtenKeys] at hk
  | cons sub rest ih =>
    intro S k hk
    simp only [writtenKeys, List.mem_append] at hk
    rcases hk with hk | hk
    · by_cases hw : (stepUpd env S sub).1 = true
      · rw [if_pos hw] at hk
        simp only [List.mem_singleton] at hk
        subst hk
        simp
      · rw [if_neg hw] at hk
        simp at hk
    · have := ih (stepUpd env S sub).2 k hk
      simp only [List.map_cons, List.mem_cons]
      exact Or.inr this

lemma survivors_eq_filter (env : SweepEnv) :
    ∀ (subs : List Subscription) (S : List Int),
    subs.Pairwise (fun a b => subKey a ≠ subKey b) →
    subs.filter (fun s => decide (subKey s ∉ writtenKeys env S subs))
      = survivors env S subs := by
  intro subs
  induction subs with
  | nil => intro S _; simp [writtenKeys, survivors]
  | cons sub rest ih =>
    intro S hpw
    obtain ⟨hhead, hrest⟩ := List.pairwise_cons.1 hpw
    have hnotT : subKey sub ∉ writtenKeys env (stepUpd env S sub).2 rest := by
      intro hmem
      have := writtenKeys_subset env rest (stepUpd env S sub).2 _ hmem
      simp only [List.mem_map] at this
      obtain ⟨x, hx, hxk⟩ := this
      exact hhead x hx hxk.symm
    have htail : rest.filter
        (fun s => decide (subKey s ∉ writtenKeys env S (sub :: rest)))
        = rest.filter
            (fun s => decide (subKey s ∉ writtenKeys env (stepUpd env S sub).2 rest)) := by
      refine List.filter_congr fun x hx => ?_
      have hxk : subKey x ≠ subKey sub := fun hEq => hhead x hx hEq.symm
      simp only [writtenKeys, List.mem_append, decide_eq_decide]
      by_cases hw : (stepUpd env S sub).1 = true
      · rw [if_pos hw]
        simp [hxk]
      · rw [if_neg hw]
        simp
    by_cases hw : (stepUpd env S sub).1 = true
    · have hdrop : (decide (subKey sub ∉ writtenKeys env S (sub :: rest))) = false := by
        simp only [writtenKeys, if_pos hw, List.mem_append, List.mem_singleton]
        simp
      simp only [survivors, if_pos hw, List.filter_cons, hdrop, List.nil_append]
      rw [htail]
      exact ih (stepUpd env S sub).2 hrest
    · have hkeep : (decide (subKey sub ∉ writtenKeys env S (sub :: rest))) = true := by
        simp only [writtenKeys, if_neg hw, List.nil_append]
        simpa using hnotT
      simp only [survivors, if_neg hw, List.filter_cons, hkeep, List.singleton_append]
      rw [htail]
      rw [ih (stepUpd env S sub).2 hrest]
      simp

lemma core_upd_flagged : ∀ (env : SweepEnv) (c : Int) (sub : Subscription),
    (processCoreChan env true c sub).upd = true
    ∧ (processCoreChan env true c sub).addChan = false := by
  intro env c sub
  exact ⟨rfl, rfl⟩

lemma stepUpd_mono (env : SweepEnv) (S : List Int) (sub : Subscription) :
    ∀ x ∈ S, x ∈ (stepUpd env S sub).2 := by
  intro x hx
  rcases hprem : env.premium_channel sub.owner_id with _ | c
  · simpa [stepUpd, hprem] using hx
  · simp only [stepUpd, hprem]
    split
    · exact List.mem_cons_of_mem _ hx
    · exact hx

/-- Replay lemma: a record whose first-run iteration did not persist a
write also persists none when replayed from any smaller flagged set, and
the replay's resulting flagged set stays below the first run's. -/
lemma stepUpd_replay (env : SweepEnv) (sub : Subscription) (S1 S2 : List Int)
    (hsub : ∀ x ∈ S2, x ∈ S1)
    (hw : (stepUpd env S1 sub).1 = false) :
    (stepUpd env S2 sub).1 = false
    ∧ ∀ x ∈ (stepUpd env S2 sub).2, x ∈ (stepUpd env S1 sub).2 := by
  rcases hprem : env.premium_channel sub.owner_id with _ | c
  · refine ⟨by simp [stepUpd, hprem], ?_⟩
    simp only [stepUpd, hprem]
    exact hsub
  · simp only [stepUpd, hprem] at hw ⊢
    by_cases hok : env.update_ok sub.user_id sub.channel_id = true
    · have hupd1 : (processCoreChan env (decide (c ∈ S1)) c sub).upd = false := by
        refine Bool.eq_false_iff.2 fun h => ?_
        rw [h, hok] at hw
        simp at hw
      have hc1 : c ∉ S1 := by
        intro hc
        have hb : decide (c ∈ S1) = true := by simpa using hc
        rw [hb] at hupd1
        have := (core_upd_flagged env c sub).1
        rw [this] at hupd1
        simp at hupd1
      have hc2 : c ∉ S2 := fun hc => hc1 (hsub c hc)
      have hb1 : decide (c ∈ S1) = false := decide_eq_false hc1
      have hb2 : decide (c ∈ S2) = false := decide_eq_false hc2
      rw [hb1] at hupd1 hw ⊢
      rw [hb2]
      refine ⟨by rw [hupd1]; simp, ?_⟩
      intro x hx
      split at hx
      · rename_i hadd
        rw [if_pos hadd]
        rcases List.mem_cons.1 hx with h | h
        · exact h ▸ List.mem_cons_self _ _
        · exact List.mem_cons_of_mem _ (hsub x h)
      · rename_i hadd
        rw [if_neg hadd]
        exact hsub x hx
    · have hokf : env.update_ok sub.user_id sub.channel_id = false :=
        Bool.not_eq_true _ ▸ Bool.eq_false_iff.2 (fun h => hok h)
      refine ⟨by rw [hokf]; simp, ?_⟩
      intro x hx
      by_cases hc1 : c ∈ S1
      · have hb1 : decide (c ∈ S1) = true := by simpa using hc1
        rw [hb1, (core_upd_flagged env c sub).2, if_neg (by simp)]
        split at hx
        · rcases List.mem_cons.1 hx with h | h
          · exact h ▸ hc1
          · exact hsub x h
        · exact hsub x hx
      · have hc2 : c ∉ S2 := fun hc => hc1 (hsub c hc)
        have hb1 : decide (c ∈ S1) = false := decide_eq_false hc1
        have hb2 : decide (c ∈ S2) = false := decide_eq_false hc2
        rw [hb1]
        rw [hb2] at hx
        split at hx
        · rename_i hadd
          rw [if_pos hadd]
          rcases List.mem_cons.1 hx with h | h
          · exact h ▸ List.mem_cons_self _ _
          · exact List.mem_cons_of_mem _ (hsub x h)
        · rename_i hadd
          rw [if_neg hadd]
          exact hsub x hx

/-- Replaying the survivors of a run from any smaller flagged set writes
nothing to the database. -/
lemma survivors_no_writes (env : SweepEnv) :
    ∀ (subs : List Subscription) (S1 S2 : List Int),
    (∀ x ∈ S2, x ∈ S1) →
    writtenKeys env S2 (survivors env S1 subs) = [] := by
  intro subs
  induction subs with
  | nil => intro S1 S2 _; simp [survivors, writtenKeys]
  | cons sub rest ih =>
    intro S1 S2 hsub
    by_cases hw1 : (stepUpd env S1 sub).1 = true
    · simp only [survivors, if_pos hw1, List.nil_append]
      exact ih (stepUpd env S1 sub).2 S2
        (fun x hx => stepUpd_mono env S1 sub x (hsub x hx))
    · have hw1f : (stepUpd env S1 sub).1 = false := Bool.eq_false_iff.2 hw1
      obtain ⟨hw2, hsub'⟩ := stepUpd_replay env sub S1 S2 hsub hw1f
      simp only [survivors, if_neg hw1, List.singleton_append, writtenKeys]
      rw [hw2]
      simp only [Bool.false_eq_true, if_false, List.nil_append]
      exact ih (stepUpd env S1 sub).2 (stepUpd env S2 sub).2 hsub'

/-- The subscription row a per-record event is about: the status-update
call and the two per-record owner notifications carry the record's
`(user_id, channel_id)` key; channel-level notifications and logs carry
none. -/
def eventSubKey : SweepEvent → Option (Int × Int)
  | .setStatusCall u c _ => some (u, c)
  | .notifyAutoBan _ u c => some (u, c)
  | .notifyUntouchable _ u c => some (u, c)
  | _ => none

lemma banCore_event_key (env : SweepEnv) (b : Bool) (c0 : Int)
    (sub : Subscription) :
    ∀ e ∈ (banCore env b c0 sub).events, ∀ k, eventSubKey e = some k →
      k = subKey sub := by
  intro e he k hk
  rcases hban : env.ban_member c0 sub.user_id with _ | _ | _ | _ <;>
    rw [banCore, hban] at he
  · simp only [List.mem_cons, List.not_mem_nil, or_false] at he
    rcases he with rfl | rfl | rfl <;> simp_all [eventSubKey, subKey]
  · cases b
    · simp at he
      rcases he with rfl | rfl | rfl <;> simp_all [eventSubKey, subKey]
    · simp at he
      rcases he with rfl | rfl <;> simp_all [eventSubKey, subKey]
  · simp only [List.mem_cons, List.not_mem_nil, or_false] at he
    subst he
    simp [eventSubKey] at hk
  · simp only [List.mem_cons, List.not_mem_nil, or_false] at he
    rcases he with rfl | rfl <;> simp_all [eventSubKey, subKey]

lemma core_event_key (env : SweepEnv) (b : Bool) (c0 : Int)
    (sub : Subscription) :
    ∀ e ∈ (processCoreChan env b c0 sub).events, ∀ k, eventSubKey e = some k →
      k = subKey sub := by
  intro e he k hk
  rcases core_cases env b c0 sub with ⟨hcv, -⟩ | ⟨hcv, -⟩ | hcv <;> rw [hcv] at he
  · simp only [List.mem_singleton] at he
    subst he
    simp only [eventSubKey, Option.some.injEq] at hk
    simp [subKey, ← hk]
  · simp only [List.mem_cons, List.not_mem_nil, or_false] at he
    rcases he with rfl | rfl | rfl <;> simp_all [eventSubKey, subKey]
  · rcases untouchable_cases env b c0 sub with huv | huv <;> rw [huv] at he
    · simp only [List.mem_cons, List.not_mem_nil, or_false] at he
      rcases he with rfl | rfl | rfl <;> simp_all [eventSubKey, subKey]
    · exact banCore_event_key env b c0 sub e he k hk

lemma processOne_event_key (env : SweepEnv) (db : List Subscription)
    (S : List Int) (sub : Subscription) :
    ∀ e ∈ (processOne env db S sub).events, ∀ k, eventSubKey e = some k →
      k = subKey sub := by
  intro e he k hk
  rcases hprem : env.premium_channel sub.owner_id with _ | c
  · simp only [processOne, hprem, List.mem_singleton] at he
    subst he
    simp [eventSubKey] at hk
  · rw [processOne_eq db S hprem] at he
    exact core_event_key env (decide (c ∈ S)) c sub e he k hk

lemma sweepGo_event_key (env : SweepEnv) :
    ∀ (subs db : List Subscription) (S : List Int),
    ∀ e ∈ (sweepGo env db S subs).events, ∀ k, eventSubKey e = some k →
      k ∈ subs.map subKey := by
  intro subs
  induction subs with
  | nil => intro db S e he; simp [sweepGo] at he
  | cons sub rest ih =>
    intro db S e he k hk
    simp only [sweepGo, List.mem_append] at he
    rcases he with he | he
    · have := processOne_event_key env db S sub e he k hk
      subst this
      simp
    · have := ih (processOne env db S sub).db (processOne env db S sub).flagged e he k hk
      simp only [List.map_cons, List.mem_cons]
      exact Or.inr this

/-- C4: for a fixed snapshot (same environment, same `now`) with the
table's primary-key uniqueness, running the expiry sweep twice in
immediate succession yields the same final database as running it once;
every record the first run transitioned to banned (its key is among the
first run's successfully written keys) is excluded from the second run's
step-1 query, and the second run emits no status-update call and no
per-record owner notification for any such record. -/
theorem C4_sweep_idempotent (env : SweepEnv) (db : List Subscription)
    (now : Int)
    (hkeys : db.Pairwise (fun a b => subKey a ≠ subKey b)) :
    (check_expired_subscriptions env
        (check_expired_subscriptions env db now).db now).db
      = (check_expired_subscriptions env db now).db
    ∧ (∀ k ∈ writtenKeys env [] (get_expired_subscriptions db now),
        ∀ s ∈ get_expired_subscriptions
            (check_expired_subscriptions env db now).db now, subKey s ≠ k)
    ∧ (∀ k ∈ writtenKeys env [] (get_expired_subscriptions db now),
        ∀ e ∈ (check_expired_subscriptions env
            (check_expired_subscriptions env db now).db now).events,
          eventSubKey e ≠ some k) := by
  have hkeys₁ : (get_expired_subscriptions db now).Pairwise
      (fun a b => subKey a ≠ subKey b) :=
    hkeys.sublist (List.filter_sublist db)
  have hdb1 : (check_expired_subscriptions env db now).db
      = setBannedKeys db (writtenKeys env [] (get_expired_subscriptions db now)) :=
    sweepGo_db env (get_expired_subscriptions db now) db []
  have hq2 : get_expired_subscriptions (check_expired_subscriptions env db now).db now
      = survivors env [] (get_expired_subscriptions db now) := by
    rw [hdb1, get_expired_setBanned]
    exact survivors_eq_filter env (get_expired_subscriptions db now) [] hkeys₁
  refine ⟨?_, ?_, ?_⟩
  · have hdb2 : (check_expired_subscriptions env
        (check_expired_subscriptions env db now).db now).db
        = setBannedKeys (check_expired_subscriptions env db now).db
            (writtenKeys env []
              (get_expired_subscriptions (check_expired_subscriptions env db now).db now)) :=
      sweepGo_db env _ _ []
    rw [hdb2, hq2, survivors_no_writes env _ [] [] (fun x hx => hx),
      setBannedKeys_nil]
  · intro k hk s hs
    rw [hq2, ← survivors_eq_filter env (get_expired_subscriptions db now) [] hkeys₁] at hs
    rw [List.mem_filter] at hs
    have := hs.2
    simp only [decide_eq_true_eq] at this
    intro hEq
    exact this (hEq ▸ hk)
  · intro k hk e he hEq
    have hkm := sweepGo_event_key env _ _ [] e he k hEq
    rw [hq2, ← survivors_eq_filter env (get_expired_subscriptions db now) [] hkeys₁] at hkm
    simp only [List.mem_map] at hkm
    obtain ⟨s, hs, hsk⟩ := hkm
    rw [List.mem_filter] at hs
    have := hs.2
    simp only [decide_eq_true_eq] at this
    exact this (hsk ▸ hk)

/-- Witness for C4 at the concrete snapshot `dbC5` under `envC5`. -/
theorem C4_sweep_idempotent_witness :
    (check_expired_subscriptions envC5
        (check_expired_subscriptions envC5 dbC5 10).db 10).db
      = (check_expired_subscriptions envC5 dbC5 10).db
    ∧ (∀ k ∈ writtenKeys envC5 [] (get_expired_subscriptions dbC5 10),
        ∀ s ∈ get_expired_subscriptions
            (check_expired_subscriptions envC5 dbC5 10).db 10, subKey s ≠ k)
    ∧ (∀ k ∈ writtenKeys envC5 [] (get_expired_subscriptions dbC5 10),
        ∀ e ∈ (check_expired_subscriptions envC5
            (check_expired_subscriptions envC5 dbC5 10).db 10).events,
          eventSubKey e ≠ some k) :=
  C4_sweep_idempotent envC5 dbC5 10 (by decide)

/-! ### Post publication pipeline
(`BotScheduler.publish_scheduled_posts`, `send_post_to_channel` in
`src/handlers/admin_posts.py`, `PostManager` in
`src/database/models.py`) -/

/-- One row of the `scheduled_posts` table.  `channel_id = 0` encodes SQL
NULL (`get_posts_to_publish` coerces a missing channel to `0`, and the
scheduler treats `0` as falsy). -/
structure ScheduledPost where
  post_id : Int
  owner_id : Int
  channel_id : Int
  content_type : String
  content : String
  caption : Option String
  buttons_json : Option String
  publish_date : Int
  status : String
deriving Repr, DecidableEq

/-- Stable insertion for `ORDER BY publish_date ASC`. -/
def insertByDate (p : ScheduledPost) : List ScheduledPost → List ScheduledPost
  | [] => [p]
  | q :: rest =>
    if p.publish_date ≤ q.publish_date then p :: q :: rest
    else q :: insertByDate p rest

def sortByPublishDate (l : List ScheduledPost) : List ScheduledPost :=
  l.foldr insertByDate []

/-- `PostManager.get_posts_to_publish`:
`SELECT * FROM scheduled_posts WHERE status = 'pending' AND
publish_date <= now ORDER BY publish_date ASC`. -/
def get_posts_to_publish (db : List ScheduledPost) (now : Int) :
    List ScheduledPost :=
  sortByPublishDate
    (db.filter fun p => decide (p.status = "pending" ∧ p.publish_date ≤ now))

/-- `PostManager.update_post_status`:
`UPDATE scheduled_posts SET status = ? WHERE post_id = ?`. -/
def update_post_status (db : List ScheduledPost) (pid : Int) (st : String) :
    List ScheduledPost :=
  db.map fun p => if p.post_id = pid then { p with status := st } else p

/-- Transport/storage environment for the publication pipeline:
`premium_channel` is the owner's default-channel fallback, `send_ok`
tells whether the dispatched transport send on a channel succeeds (a
failure models the raised exception caught in `send_post_to_channel`),
and `post_update_ok` whether the status write persists (the method
swallows storage errors and returns a boolean that the pipeline
ignores). -/
structure PublishEnv where
  premium_channel : Int → Option Int
  send_ok : Int → String → Bool
  post_update_ok : Int → Bool

/-- Observable side effects of the publication pipeline.  The
`error…` constructors are `logger.error` calls; `send…` are the
channel-facing transport operations; `notifyPublished` is the owner
confirmation message (modelled as succeeding; its failure only marks the
post failed after the fact). -/
inductive PubEvent where
  | errorChannelNotConfigured (uid : Int)
  | sendText (chan : Int)
  | sendPhoto (chan : Int)
  | sendVideo (chan : Int)
  | sendDocument (chan : Int)
  | sendSticker (chan : Int)
  | errorUnknownType (t : String)
  | errorSendFailed
  | errorNoChannelForPost (pid : Int)
  | setPostStatus (pid : Int) (status : String)
  | notifyPublished (owner pid : Int)
  | errorPublishFailed (pid : Int)
deriving Repr, DecidableEq

/-- Status write with its storage outcome applied. -/
def apply_post_status (env : PublishEnv) (db : List ScheduledPost)
    (pid : Int) (st : String) : List ScheduledPost :=
  if env.post_update_ok pid then update_post_status db pid st else db

/-- `send_post_to_channel(bot, post_data, user_id, channel_id)`: resolve
the target channel (explicit channel if truthy, else the user's premium
channel; when neither resolves, log and return `False`), then dispatch by
content type — the closed variant `text/photo/video/document/sticker` —
returning `True` on success; an unrecognized type logs
`"Nieobsługiwany typ treści"` and returns `False` without any transport
call. -/
def send_post_to_channel (env : PublishEnv) (user_id : Int)
    (channel_id : Option Int) (content_type : String) :
    Bool × List PubEvent :=
  let target : Option Int :=
    match channel_id with
    | some c => if c = 0 then env.premium_channel user_id else some c
    | none => env.premium_channel user_id
  match target with
  | none => (false, [.errorChannelNotConfigured user_id])
  | some t =>
    if t = 0 then (false, [.errorChannelNotConfigured user_id])
    else if content_type = "text" then
      if env.send_ok t content_type then (true, [.sendText t])
      else (false, [.sendText t, .errorSendFailed])
    else if content_type = "photo" then
      if env.send_ok t content_type then (true, [.sendPhoto t])
      else (false, [.sendPhoto t, .errorSendFailed])
    else if content_type = "video" then
      if env.send_ok t content_type then (true, [.sendVideo t])
      else (false, [.sendVideo t, .errorSendFailed])
    else if content_type = "document" then
      if env.send_ok t content_type then (true, [.sendDocument t])
      else (false, [.sendDocument t, .errorSendFailed])
    else if content_type = "sticker" then
      if env.send_ok t content_type then (true, [.sendSticker t])
      else (false, [.sendSticker t, .errorSendFailed])
    else (false, [.errorUnknownType content_type])

/-- One iteration of the `for post in posts_to_publish` loop: resolve the
channel (the post's own if truthy, else the owner's premium channel; if
neither, log `"Brak kanału dla posta"` and mark failed), dispatch via
`send_post_to_channel`, then mark sent (with an owner confirmation) or
failed (with an error log). -/
def publish_one (env : PublishEnv) (db : List ScheduledPost)
    (post : ScheduledPost) : List ScheduledPost × List PubEvent :=
  let resolved : Option Int :=
    if post.channel_id = 0 then env.premium_channel post.owner_id
    else some post.channel_id
  match resolved with
  | none =>
      (apply_post_status env db post.post_id "failed",
       [.errorNoChannelForPost post.post_id,
        .setPostStatus post.post_id "failed"])
  | some c =>
    if c = 0 then
      (apply_post_status env db post.post_id "failed",
       [.errorNoChannelForPost post.post_id,
        .setPostStatus post.post_id "failed"])
    else
      let r := send_post_to_channel env post.owner_id (some c) post.content_type
      if r.1 then
        (apply_post_status env db post.post_id "sent",
         r.2 ++ [.setPostStatus post.post_id "sent",
                 .notifyPublished post.owner_id post.post_id])
      else
        (apply_post_status env db post.post_id "failed",
         r.2 ++ [.setPostStatus post.post_id "failed",
                 .errorPublishFailed post.post_id])

/-- The loop over all due posts. -/
def publishGo (env : PublishEnv) (db : List ScheduledPost) :
    List ScheduledPost → List ScheduledPost × List PubEvent
  | [] => (db, [])
  | p :: rest =>
    let r := publish_one env db p
    let r' := publishGo env r.1 rest
    (r'.1, r.2 ++ r'.2)

/-- `BotScheduler.publish_scheduled_posts`. -/
def publish_scheduled_posts (env : PublishEnv) (db : List ScheduledPost)
    (now : Int) : List ScheduledPost × List PubEvent :=
  publishGo env db (get_posts_to_publish db now)

/-- Channel-facing transport send operations (including the owner
confirmation message, which is also a transport send). -/
def isSendEvent : PubEvent → Bool
  | .sendText _ => true
  | .sendPhoto _ => true
  | .sendVideo _ => true
  | .sendDocument _ => true
  | .sendSticker _ => true
  | .notifyPublished _ _ => true
  | _ => false

/-- Error-level log entries. -/
def isErrorLog : PubEvent → Bool
  | .errorChannelNotConfigured _ => true
  | .errorUnknownType _ => true
  | .errorSendFailed => true
  | .errorNoChannelForPost _ => true
  | .errorPublishFailed _ => true
  | _ => false

lemma mem_insertByDate {x p : ScheduledPost} :
    ∀ {l : List ScheduledPost}, x ∈ insertByDate p l ↔ x = p ∨ x ∈ l := by
  intro l
  induction l with
  | nil => simp [insertByDate]
  | cons q rest ih =>
    simp only [insertByDate]
    split
    · simp
    · simp only [List.mem_cons, ih]
      tauto

lemma mem_sortByPublishDate {x : ScheduledPost} :
    ∀ {l : List ScheduledPost}, x ∈ sortByPublishDate l ↔ x ∈ l := by
  intro l
  induction l with
  | nil => simp [sortByPublishDate]
  | cons q rest ih =>
    simp only [sortByPublishDate, List.foldr_cons]
    rw [mem_insertByDate]
    simp only [sortByPublishDate] at ih
    rw [ih]
    simp

/-- A post in a terminal state (`sent` or `failed`) is never selected by
`get_posts_to_publish`: the query selects only `status = 'pending'`. -/
lemma posts_to_publish_pending {db : List ScheduledPost} {now : Int}
    {q : ScheduledPost} (h : q ∈ get_posts_to_publish db now) :
    q.status = "pending" := by
  rw [get_posts_to_publish, mem_sortByPublishDate, List.mem_filter] at h
  have := h.2
  simp only [decide_eq_true_eq] at this
  exact this.1

lemma send_post_unknown (env : PublishEnv) (uid c : Int) (ct : String)
    (hc : c ≠ 0)
    (h1 : ct ≠ "text") (h2 : ct ≠ "photo") (h3 : ct ≠ "video")
    (h4 : ct ≠ "document") (h5 : ct ≠ "sticker") :
    send_post_to_channel env uid (some c) ct
      = (false, [.errorUnknownType ct]) := by
  simp [send_post_to_channel, hc, h1, h2, h3, h4, h5]

/-- C8: a due post with a content type outside the closed variant
`text/photo/video/document/sticker` triggers no transport send operation,
has its status set to `failed` (the write is the `failed` status write),
and produces an error-level log entry; and a failed post is terminal —
`get_posts_to_publish` never selects a non-`pending` row, so it is never
retried. -/
theorem C8_unknown_type_hard_failure (env : PublishEnv)
    (db : List ScheduledPost) (post : ScheduledPost)
    (hty : post.content_type ∉ (["text", "photo", "video", "document",
      "sticker"] : List String)) :
    (∀ e ∈ (publish_one env db post).2, isSendEvent e = false)
    ∧ PubEvent.setPostStatus post.post_id "failed" ∈ (publish_one env db post).2
    ∧ (∃ e ∈ (publish_one env db post).2, isErrorLog e = true)
    ∧ (publish_one env db post).1 = apply_post_status env db post.post_id "failed"
    ∧ ∀ (db₂ : List ScheduledPost) (now₂ : Int) (q : ScheduledPost),
        q ∈ get_posts_to_publish db₂ now₂ → q.status = "pending" := by
  simp only [List.mem_cons, List.not_mem_nil, or_false, not_or] at hty
  obtain ⟨h1, h2, h3, h4, h5⟩ := hty
  have hmain : (publish_one env db post).2
        = [.errorNoChannelForPost post.post_id,
           .setPostStatus post.post_id "failed"]
      ∨ (publish_one env db post).2
        = [.errorUnknownType post.content_type,
           .setPostStatus post.post_id "failed",
           .errorPublishFailed post.post_id] := by
    rw [publish_one]
    by_cases hch : post.channel_id = 0
    · simp only [hch, if_true]
      rcases hpc : env.premium_channel post.owner_id with _ | c
      · left; rfl
      · simp only
        by_cases hc0 : c = 0
        · rw [if_pos hc0]
          left
          rfl
        · rw [if_neg hc0, send_post_unknown env post.owner_id c _ hc0 h1 h2 h3 h4 h5]
          right
          rfl
    · simp only [hch, if_false, if_neg hch,
        send_post_unknown env post.owner_id post.channel_id _ hch h1 h2 h3 h4 h5]
      right
      rfl
  have hdbmain : (publish_one env db post).1
      = apply_post_status env db post.post_id "failed" := by
    rw [publish_one]
    by_cases hch : post.channel_id = 0
    · simp only [hch, if_true]
      rcases hpc : env.premium_channel post.owner_id with _ | c
      · rfl
      · simp only
        by_cases hc0 : c = 0
        · rw [if_pos hc0]
        · rw [if_neg hc0, send_post_unknown env post.owner_id c _ hc0 h1 h2 h3 h4 h5]
          rfl
    · simp only [hch, if_false, if_neg hch,
        send_post_unknown env post.owner_id post.channel_id _ hch h1 h2 h3 h4 h5]
      rfl
  refine ⟨?_, ?_, ?_, hdbmain,
    fun db₂ now₂ q hq => posts_to_publish_pending hq⟩
  · intro e he
    rcases hmain with hm | hm <;> rw [hm] at he
    · simp only [List.mem_cons, List.not_mem_nil, or_false] at he
      rcases he with rfl | rfl <;> rfl
    · simp only [List.mem_cons, List.not_mem_nil, or_false] at he
      rcases he with rfl | rfl | rfl <;> rfl
  · rcases hmain with hm | hm <;> rw [hm] <;> simp
  · rcases hmain with hm | hm <;> rw [hm]
    · exact ⟨.errorNoChannelForPost post.post_id, by simp, rfl⟩
    · exact ⟨.errorUnknownType post.content_type, by simp, rfl⟩

/-- Concrete inputs for the C8 witness: a due post with content type
`"unknown"`. -/
def postU : ScheduledPost :=
  ⟨1, 7, 100, "unknown", "payload", none, none, 0, "pending"⟩

def envP : PublishEnv := ⟨fun _ => some 100, fun _ _ => true, fun _ => true⟩

/-- Witness for C8 at the concrete post `postU`. -/
theorem C8_unknown_type_hard_failure_witness :
    (∀ e ∈ (publish_one envP [postU] postU).2, isSendEvent e = false)
    ∧ PubEvent.setPostStatus postU.post_id "failed" ∈ (publish_one envP [postU] postU).2
    ∧ (∃ e ∈ (publish_one envP [postU] postU).2, isErrorLog e = true)
    ∧ (publish_one envP [postU] postU).1
        = apply_post_status envP [postU] postU.post_id "failed"
    ∧ ∀ (db₂ : List ScheduledPost) (now₂ : Int) (q : ScheduledPost),
        q ∈ get_posts_to_publish db₂ now₂ → q.status = "pending" :=
  C8_unknown_type_hard_failure envP [postU] postU (by decide)

end Bocik
